import Mathlib

/-!
# Verification of the `fully_pub` visibility rewriter

Shallow embedding of `src/lib.rs` of the `fully_pub` crate: an attribute
macro that rewrites the visibility of a parsed Rust item (and, per kind, of
its members/fields, and recursively of module contents) to `pub`, unless a
node opts out with a `#[fully_pub(exclude)]` marker attribute.

The embedding mirrors the source:
* `Attribute` models `syn::Attribute` as the pair of its path (compared with
  `is_ident(CRATE_NAME)`) and the result of `parse_args::<Ident>()`
  (`none` when the argument tokens do not parse as a single identifier).
* `Visibility` models `syn::Visibility` (`Public`, `Restricted`, `Inherited`).
* `Item` models the `syn::Item` variants the source matches on, carrying the
  fields the source reads or writes (`vis`, `attrs`, children) plus an opaque
  `String` payload for everything the source leaves untouched.
* `is_exclude`, `make_pub`, `explore_item` and `make_fully_pub` are the four
  functions of the source, with in-place mutation turned into explicit
  returns and `syn::Result` into `Except RewriteError`.
-/

namespace FullyPub

/-- `CRATE_NAME`: the reserved marker namespace, `env!("CARGO_PKG_NAME")`. -/
def CRATE_NAME : String := "fully_pub"

/-- Models `syn::Attribute`: `path` is what `attr.path().is_ident(CRATE_NAME)`
inspects, and `arg` is the result of `attr.parse_args::<Ident>()` —
`some ident` on success, `none` when the argument tokens are not a single
identifier (the `?` then propagates a parse error). -/
structure Attribute where
  path : String
  arg : Option String
deriving DecidableEq, Repr

/-- Models `syn::Visibility`. -/
inductive Visibility where
  | public
  | restricted (path : String)
  | inherited
deriving DecidableEq, Repr

/-- The failure modes of the rewriter (`syn::Error` values built by `bail!`
and by the `?` on `parse_args`):
* `parseError` — `attr.parse_args::<Ident>()` failed;
* `unknownArgument arg` — "unknown fully_pub attribute `arg`";
* `duplicateMarker` — "duplicate fully_pub attribute `exclude`";
* `invalidMacroArgument arg` — "invalid argument to `fully_pub` attribute macro". -/
inductive RewriteError where
  | parseError
  | unknownArgument (arg : String)
  | duplicateMarker
  | invalidMacroArgument (arg : String)
deriving DecidableEq, Repr

/-- Models `syn::Field` (of a struct or union): the source reads and writes
only `vis` and `attrs`; `name` stands for the untouched rest. -/
structure Field where
  vis : Visibility
  attrs : List Attribute
  name : String
deriving DecidableEq, Repr

/-- Models `syn::Fields` of a struct: named, unnamed (tuple) or unit. -/
inductive Fields where
  | named (fields : List Field)
  | unnamed (fields : List Field)
  | unit
deriving DecidableEq, Repr

/-- Models `syn::ForeignItem` (contents of an `extern` block): the source
matches `Fn`, `Static` and `Type` (reading `vis`, `attrs`), leaves `Macro`
and the `_` catch-all untouched. -/
inductive ForeignItem where
  | fn (vis : Visibility) (attrs : List Attribute) (sig : String)
  | static' (vis : Visibility) (attrs : List Attribute) (name : String)
  | type' (vis : Visibility) (attrs : List Attribute) (name : String)
  | macroCall (tokens : String)
  | verbatim (tokens : String)
deriving DecidableEq, Repr

/-- Models `syn::ImplItem` (contents of an `impl` block): the source matches
`Const`, `Fn` and `Type` (reading `vis`, `attrs`), leaves `Macro` and the
`_` catch-all untouched. -/
inductive ImplItem where
  | const' (vis : Visibility) (attrs : List Attribute) (name : String)
  | fn (vis : Visibility) (attrs : List Attribute) (name : String)
  | type' (vis : Visibility) (attrs : List Attribute) (name : String)
  | macroCall (tokens : String)
  | verbatim (tokens : String)
deriving DecidableEq, Repr

mutual
/-- Models the `syn::Item` variants the source matches on.  Fields the source
never reads are collapsed into an opaque `String` payload.  A function body
is `Items` (the items declared inside the block — the only part of a block
this development needs; the source never descends into a block).  `mod'`
carries `Option Items`: `some` for an inline body `mod m { ... }`, `none`
for a declaration `mod m;` (matching `content: Option<(Brace, Vec<Item>)>`). -/
inductive Item where
  | const' (vis : Visibility) (attrs : List Attribute) (name : String)
  | enum' (vis : Visibility) (attrs : List Attribute) (name : String)
  | fn (vis : Visibility) (attrs : List Attribute) (sig : String) (body : Items)
  | static' (vis : Visibility) (attrs : List Attribute) (name : String)
  | trait' (vis : Visibility) (attrs : List Attribute) (name : String)
  | traitAlias (vis : Visibility) (attrs : List Attribute) (name : String)
  | typeAlias (vis : Visibility) (attrs : List Attribute) (name : String)
  | externCrate (vis : Visibility) (attrs : List Attribute) (name : String)
  | macroDef (attrs : List Attribute) (name : String)
  | use' (vis : Visibility) (attrs : List Attribute) (tree : String)
  | foreignMod (attrs : List Attribute) (abi : String) (items : List ForeignItem)
  | impl' (attrs : List Attribute) (traitRef : Option String) (selfTy : String)
      (items : List ImplItem)
  | mod' (vis : Visibility) (attrs : List Attribute) (name : String)
      (content : Option Items)
  | struct' (vis : Visibility) (attrs : List Attribute) (name : String)
      (fields : Fields)
  | union' (vis : Visibility) (attrs : List Attribute) (name : String)
      (fields : List Field)
  | verbatim (tokens : String)

/-- A list of items (`Vec<Item>`), as its own inductive so that the mutual
recursion of `explore_item` over module contents is structural. -/
inductive Items where
  | nil
  | cons (head : Item) (tail : Items)
end

/-- `is_exclude` of the source.  The Rust loop takes the attribute vector
out (`mem::take`), then pushes back every attribute whose path is not
`CRATE_NAME`; a matching attribute must parse to the single identifier
`exclude` (otherwise `unknown … attribute`), and a second one is
`duplicate … attribute exclude`.  `flag` is the loop-carried `is_exclude`
boolean and `out` the vector being rebuilt. -/
def is_excludeGo (flag : Bool) (out : List Attribute) :
    List Attribute → Except RewriteError (Bool × List Attribute)
  | [] => .ok (flag, out)
  | a :: rest =>
    if a.path = CRATE_NAME then
      match a.arg with
      | none => .error .parseError
      | some arg =>
        if arg ≠ "exclude" then .error (.unknownArgument arg)
        else if flag then .error .duplicateMarker
        else is_excludeGo true out rest
    else is_excludeGo flag (out ++ [a]) rest

/-- `fn is_exclude(attrs: &mut Vec<Attribute>) -> Result<bool>`: returns the
exclusion flag and the rebuilt attribute list. -/
def is_exclude (attrs : List Attribute) :
    Except RewriteError (Bool × List Attribute) :=
  is_excludeGo false [] attrs

/-- `fn make_pub(vis: &mut Visibility)`: `*vis = Visibility::Public(..)`. -/
def make_pub (_vis : Visibility) : Visibility := .public

/-- The `for Field { vis, attrs, .. } in fields` loops of the `Struct` and
`Union` arms: per field, scan-and-strip, then `make_pub` if not excluded. -/
def explore_fields : List Field → Except RewriteError (List Field)
  | [] => .ok []
  | f :: rest =>
    match is_exclude f.attrs with
    | .error e => .error e
    | .ok (ex, attrs') =>
      match explore_fields rest with
      | .error e => .error e
      | .ok rest' =>
        .ok (Field.mk (if ex then f.vis else make_pub f.vis) attrs' f.name :: rest')

/-- The `for item in items` loop of the `ForeignMod` arm. -/
def explore_foreign_items : List ForeignItem → Except RewriteError (List ForeignItem)
  | [] => .ok []
  | i :: rest =>
    match i with
    | .fn vis attrs sig =>
      match is_exclude attrs with
      | .error e => .error e
      | .ok (ex, attrs') =>
        match explore_foreign_items rest with
        | .error e => .error e
        | .ok rest' => .ok (.fn (if ex then vis else make_pub vis) attrs' sig :: rest')
    | .static' vis attrs name =>
      match is_exclude attrs with
      | .error e => .error e
      | .ok (ex, attrs') =>
        match explore_foreign_items rest with
        | .error e => .error e
        | .ok rest' =>
          .ok (.static' (if ex then vis else make_pub vis) attrs' name :: rest')
    | .type' vis attrs name =>
      match is_exclude attrs with
      | .error e => .error e
      | .ok (ex, attrs') =>
        match explore_foreign_items rest with
        | .error e => .error e
        | .ok rest' =>
          .ok (.type' (if ex then vis else make_pub vis) attrs' name :: rest')
    | .macroCall tokens =>
      match explore_foreign_items rest with
      | .error e => .error e
      | .ok rest' => .ok (.macroCall tokens :: rest')
    | .verbatim tokens =>
      match explore_foreign_items rest with
      | .error e => .error e
      | .ok rest' => .ok (.verbatim tokens :: rest')

/-- The `for item in items` loop of the `Impl` arm. -/
def explore_impl_items : List ImplItem → Except RewriteError (List ImplItem)
  | [] => .ok []
  | i :: rest =>
    match i with
    | .const' vis attrs name =>
      match is_exclude attrs with
      | .error e => .error e
      | .ok (ex, attrs') =>
        match explore_impl_items rest with
        | .error e => .error e
        | .ok rest' =>
          .ok (.const' (if ex then vis else make_pub vis) attrs' name :: rest')
    | .fn vis attrs name =>
      match is_exclude attrs with
      | .error e => .error e
      | .ok (ex, attrs') =>
        match explore_impl_items rest with
        | .error e => .error e
        | .ok rest' => .ok (.fn (if ex then vis else make_pub vis) attrs' name :: rest')
    | .type' vis attrs name =>
      match is_exclude attrs with
      | .error e => .error e
      | .ok (ex, attrs') =>
        match explore_impl_items rest with
        | .error e => .error e
        | .ok rest' =>
          .ok (.type' (if ex then vis else make_pub vis) attrs' name :: rest')
    | .macroCall tokens =>
      match explore_impl_items rest with
      | .error e => .error e
      | .ok rest' => .ok (.macroCall tokens :: rest')
    | .verbatim tokens =>
      match explore_impl_items rest with
      | .error e => .error e
      | .ok rest' => .ok (.verbatim tokens :: rest')

mutual
/-- `fn explore_item(item: &mut Item, recursive: bool) -> Result<()>`, with
the in-place mutation returned.  Arm by arm it mirrors the source `match`:
the seven visibility kinds (`Const`, `Enum`, `Fn`, `Static`, `Trait`,
`TraitAlias`, `Type`) scan-and-strip then `make_pub` if not excluded;
`ExternCrate`, `Macro`, `Use` are untouched; `ForeignMod` and inherent
`Impl` rewrite their member lists; a trait `Impl` short-circuits
(`trait_.is_none() && …`) before even calling `is_exclude`; `Mod` with an
inline body is made public and, when `recursive`, its content re-explored;
`Struct` and `Union` also rewrite their fields; everything else (`Verbatim`,
`Mod` without body) falls to `_ => ()`. -/
def explore_item : Item → Bool → Except RewriteError Item
  | .const' vis attrs name, _ =>
    match is_exclude attrs with
    | .error e => .error e
    | .ok (ex, attrs') => .ok (.const' (if ex then vis else make_pub vis) attrs' name)
  | .enum' vis attrs name, _ =>
    match is_exclude attrs with
    | .error e => .error e
    | .ok (ex, attrs') => .ok (.enum' (if ex then vis else make_pub vis) attrs' name)
  | .fn vis attrs sig body, _ =>
    match is_exclude attrs with
    | .error e => .error e
    | .ok (ex, attrs') => .ok (.fn (if ex then vis else make_pub vis) attrs' sig body)
  | .static' vis attrs name, _ =>
    match is_exclude attrs with
    | .error e => .error e
    | .ok (ex, attrs') => .ok (.static' (if ex then vis else make_pub vis) attrs' name)
  | .trait' vis attrs name, _ =>
    match is_exclude attrs with
    | .error e => .error e
    | .ok (ex, attrs') => .ok (.trait' (if ex then vis else make_pub vis) attrs' name)
  | .traitAlias vis attrs name, _ =>
    match is_exclude attrs with
    | .error e => .error e
    | .ok (ex, attrs') =>
      .ok (.traitAlias (if ex then vis else make_pub vis) attrs' name)
  | .typeAlias vis attrs name, _ =>
    match is_exclude attrs with
    | .error e => .error e
    | .ok (ex, attrs') => .ok (.typeAlias (if ex then vis else make_pub vis) attrs' name)
  | .externCrate vis attrs name, _ => .ok (.externCrate vis attrs name)
  | .macroDef attrs name, _ => .ok (.macroDef attrs name)
  | .use' vis attrs tree, _ => .ok (.use' vis attrs tree)
  | .foreignMod attrs abi items, _ =>
    match is_exclude attrs with
    | .error e => .error e
    | .ok (true, attrs') => .ok (.foreignMod attrs' abi items)
    | .ok (false, attrs') =>
      match explore_foreign_items items with
      | .error e => .error e
      | .ok items' => .ok (.foreignMod attrs' abi items')
  | .impl' attrs traitRef selfTy items, _ =>
    match traitRef with
    | some t => .ok (.impl' attrs (some t) selfTy items)
    | none =>
      match is_exclude attrs with
      | .error e => .error e
      | .ok (true, attrs') => .ok (.impl' attrs' none selfTy items)
      | .ok (false, attrs') =>
        match explore_impl_items items with
        | .error e => .error e
        | .ok items' => .ok (.impl' attrs' none selfTy items')
  | .mod' vis attrs name none, _ => .ok (.mod' vis attrs name none)
  | .mod' vis attrs name (some content), recursive =>
    match is_exclude attrs with
    | .error e => .error e
    | .ok (true, attrs') => .ok (.mod' vis attrs' name (some content))
    | .ok (false, attrs') =>
      if recursive then
        match explore_items content recursive with
        | .error e => .error e
        | .ok content' => .ok (.mod' (make_pub vis) attrs' name (some content'))
      else .ok (.mod' (make_pub vis) attrs' name (some content))
  | .struct' vis attrs name fields, _ =>
    match is_exclude attrs with
    | .error e => .error e
    | .ok (true, attrs') => .ok (.struct' vis attrs' name fields)
    | .ok (false, attrs') =>
      match fields with
      | .named fs =>
        match explore_fields fs with
        | .error e => .error e
        | .ok fs' => .ok (.struct' (make_pub vis) attrs' name (.named fs'))
      | .unnamed fs =>
        match explore_fields fs with
        | .error e => .error e
        | .ok fs' => .ok (.struct' (make_pub vis) attrs' name (.unnamed fs'))
      | .unit => .ok (.struct' (make_pub vis) attrs' name .unit)
  | .union' vis attrs name fields, _ =>
    match is_exclude attrs with
    | .error e => .error e
    | .ok (true, attrs') => .ok (.union' vis attrs' name fields)
    | .ok (false, attrs') =>
      match explore_fields fields with
      | .error e => .error e
      | .ok fields' => .ok (.union' (make_pub vis) attrs' name fields')
  | .verbatim tokens, _ => .ok (.verbatim tokens)

/-- The `for item in content { explore_item(item, recursive)?; }` loop of the
`Mod` arm. -/
def explore_items : Items → Bool → Except RewriteError Items
  | .nil, _ => .ok .nil
  | .cons i rest, recursive =>
    match explore_item i recursive with
    | .error e => .error e
    | .ok i' =>
      match explore_items rest recursive with
      | .error e => .error e
      | .ok rest' => .ok (.cons i' rest')
end

/-- `fn make_fully_pub(attr: Option<Ident>, item: &mut Item) -> Result<()>`:
validates the macro's own argument (`recursive` or absent) and runs
`explore_item`. -/
def make_fully_pub (attr : Option String) (item : Item) :
    Except RewriteError Item :=
  match attr with
  | some ident =>
    if ident = "recursive" then explore_item item true
    else .error (.invalidMacroArgument ident)
  | none => explore_item item false

/-! ## Derived vocabulary

Predicates used to state the claims: a *marker* is an attribute whose path
is the crate name; a *valid exclusion marker* additionally carries the
argument `exclude`. -/

/-- The attribute's path matches the reserved namespace
(`attr.path().is_ident(CRATE_NAME)`). -/
def isMarkerPath (a : Attribute) : Bool := decide (a.path = CRATE_NAME)

/-- A valid exclusion marker: `#[fully_pub(exclude)]`. -/
def isExcludeMarker (a : Attribute) : Bool :=
  decide (a.path = CRATE_NAME) && decide (a.arg = some "exclude")

/-- The attribute list carries at least one valid exclusion marker. -/
def exclB (attrs : List Attribute) : Bool := attrs.any isExcludeMarker

/-- No attribute of the list has the marker path. -/
def markerFree (attrs : List Attribute) : Bool :=
  attrs.all fun a => !isMarkerPath a

/-- The list with every marker-path attribute deleted,
non-markers kept in order. -/
def stripMarkers (attrs : List Attribute) : List Attribute :=
  attrs.filter fun a => !isMarkerPath a

/-- Every marker-path attribute of the list carries the argument `exclude`. -/
def allMarkersValid (attrs : List Attribute) : Bool :=
  attrs.all fun a => !isMarkerPath a || a.arg == some "exclude"

/-- The number of marker-path attributes of the list. -/
def markerCount (attrs : List Attribute) : Nat :=
  (attrs.filter isMarkerPath).length

/-! ## Characterization of the marker scanner -/

/-- Success characterization of the scanner loop: on `Ok`, the flag is the
entry flag or the presence of a valid exclusion marker, and the rebuilt list
is the accumulator followed by the input with markers deleted. -/
theorem is_excludeGo_ok (l : List Attribute) :
    ∀ flag out b res, is_excludeGo flag out l = .ok (b, res) →
      b = (flag || exclB l) ∧ res = out ++ stripMarkers l := by
  induction l with
  | nil =>
    intro flag out b res h
    simp [is_excludeGo] at h
    simp [exclB, stripMarkers, h.1, h.2]
  | cons a rest ih =>
    intro flag out b res h
    by_cases hp : a.path = CRATE_NAME
    · cases harg : a.arg with
      | none => simp [is_excludeGo, hp, harg] at h
      | some arg =>
        by_cases he : arg = "exclude"
        · subst he
          cases flag with
          | true => simp [is_excludeGo, hp, harg] at h
          | false =>
            simp only [is_excludeGo, hp, if_true, harg, ne_eq,
              not_true_eq_false, if_false, Bool.false_eq_true] at h
            obtain ⟨hb, hres⟩ := ih true out b res h
            constructor
            · simp [hb, exclB, isExcludeMarker, hp, harg]
            · simp [hres, stripMarkers, isMarkerPath, hp]
        · simp [is_excludeGo, hp, harg, he] at h
    · simp only [is_excludeGo, hp, if_false] at h
      obtain ⟨hb, hres⟩ := ih flag (out ++ [a]) b res h
      constructor
      · simp [hb, exclB, isExcludeMarker, hp]
      · simp [hres, stripMarkers, isMarkerPath, hp]

/-- Success characterization of `is_exclude`. -/
theorem is_exclude_ok {attrs : List Attribute} {b : Bool} {res : List Attribute}
    (h : is_exclude attrs = .ok (b, res)) :
    b = exclB attrs ∧ res = stripMarkers attrs := by
  have := is_excludeGo_ok attrs false [] b res h
  simpa using this

/-- On a marker-free list the scanner loop succeeds, keeps the flag, and
appends the list unchanged. -/
theorem is_excludeGo_markerFree (l : List Attribute) :
    ∀ flag out, markerFree l = true →
      is_excludeGo flag out l = .ok (flag, out ++ l) := by
  induction l with
  | nil => intro flag out _; simp [is_excludeGo]
  | cons a rest ih =>
    intro flag out h
    simp only [markerFree, List.all_cons, Bool.and_eq_true] at h
    have hp : ¬(a.path = CRATE_NAME) := by
      simpa [isMarkerPath] using h.1
    simp only [is_excludeGo, if_neg hp]
    simpa using ih flag (out ++ [a]) h.2

/-- On a marker-free list `is_exclude` succeeds, reports no exclusion, and
returns the list unchanged. -/
theorem is_exclude_markerFree {attrs : List Attribute}
    (h : markerFree attrs = true) :
    is_exclude attrs = .ok (false, attrs) := by
  simpa using is_excludeGo_markerFree attrs false [] h

/-- If every marker is valid and the loop either already saw a marker
(`flag = true`, one more to come) or two or more are to come, the loop fails
with the duplicate-marker error. -/
theorem is_excludeGo_dup (l : List Attribute) :
    ∀ flag out, allMarkersValid l = true →
      (if flag then 1 else 2) ≤ markerCount l →
      is_excludeGo flag out l = .error .duplicateMarker := by
  induction l with
  | nil =>
    intro flag out _ hc
    cases flag <;> simp [markerCount] at hc
  | cons a rest ih =>
    intro flag out hv hc
    simp only [allMarkersValid, List.all_cons, Bool.and_eq_true] at hv
    by_cases hp : a.path = CRATE_NAME
    · have harg : a.arg = some "exclude" := by
        have h1 := hv.1
        simp [isMarkerPath, hp] at h1
        exact h1
      have hcnt : markerCount (a :: rest) = markerCount rest + 1 := by
        simp [markerCount, List.filter_cons, isMarkerPath, hp]
      cases flag with
      | true => simp [is_excludeGo, hp, harg]
      | false =>
        simp only [is_excludeGo, hp, if_true, harg, ne_eq, not_true_eq_false,
          if_false, Bool.false_eq_true]
        apply ih true out hv.2
        rw [hcnt] at hc
        simp at hc ⊢
        omega
    · have hcnt : markerCount (a :: rest) = markerCount rest := by
        simp [markerCount, List.filter_cons, isMarkerPath, hp]
      simp only [is_excludeGo, hp, if_false]
      apply ih flag (out ++ [a]) hv.2
      rw [hcnt] at hc
      exact hc

/-- Two or more valid exclusion markers (and no invalid marker) make
`is_exclude` fail with the duplicate-marker error. -/
theorem is_exclude_dup {attrs : List Attribute}
    (hv : allMarkersValid attrs = true) (hc : 2 ≤ markerCount attrs) :
    is_exclude attrs = .error .duplicateMarker := by
  simpa using is_excludeGo_dup attrs false [] hv (by simpa using hc)

/-- Stripping leaves a marker-free list. -/
theorem markerFree_stripMarkers (attrs : List Attribute) :
    markerFree (stripMarkers attrs) = true := by
  rw [markerFree, List.all_eq_true]
  intro a ha
  simpa using List.of_mem_filter ha

/-- A marker-free list strips to itself. -/
theorem stripMarkers_of_markerFree {attrs : List Attribute}
    (h : markerFree attrs = true) : stripMarkers attrs = attrs := by
  rw [markerFree, List.all_eq_true] at h
  exact List.filter_eq_self.mpr h

/-! ## Accessors on items -/

/-- The item's visibility field, when its `syn` struct has one
(`ItemForeignMod`, `ItemImpl`, `ItemMacro` and `Verbatim` have none). -/
def Item.visOf : Item → Option Visibility
  | .const' v _ _ => some v
  | .enum' v _ _ => some v
  | .fn v _ _ _ => some v
  | .static' v _ _ => some v
  | .trait' v _ _ => some v
  | .traitAlias v _ _ => some v
  | .typeAlias v _ _ => some v
  | .externCrate v _ _ => some v
  | .macroDef _ _ => none
  | .use' v _ _ => some v
  | .foreignMod _ _ _ => none
  | .impl' _ _ _ _ => none
  | .mod' v _ _ _ => some v
  | .struct' v _ _ _ => some v
  | .union' v _ _ _ => some v
  | .verbatim _ => none

/-- The item's own attribute list (`Verbatim` carries none). -/
def Item.attrsOf : Item → List Attribute
  | .const' _ a _ => a
  | .enum' _ a _ => a
  | .fn _ a _ _ => a
  | .static' _ a _ => a
  | .trait' _ a _ => a
  | .traitAlias _ a _ => a
  | .typeAlias _ a _ => a
  | .externCrate _ a _ => a
  | .macroDef a _ => a
  | .use' _ a _ => a
  | .foreignMod a _ _ => a
  | .impl' a _ _ _ => a
  | .mod' _ a _ _ => a
  | .struct' _ a _ _ => a
  | .union' _ a _ _ => a
  | .verbatim _ => []

/-- The kinds claim C1 ranges over: item kinds with a visibility field whose
dispatch rule sets it (`const`, `fn`, `static`, `trait`, trait alias, type
alias, `struct`, `union`, `enum`, and a module with an inline body). -/
def Item.isVisKind : Item → Bool
  | .const' _ _ _ => true
  | .enum' _ _ _ => true
  | .fn _ _ _ _ => true
  | .static' _ _ _ => true
  | .trait' _ _ _ => true
  | .traitAlias _ _ _ => true
  | .typeAlias _ _ _ => true
  | .mod' _ _ _ (some _) => true
  | .struct' _ _ _ _ => true
  | .union' _ _ _ _ => true
  | _ => false

/-! ## Claim theorems -/

/-- C1: for every item whose kind has a visibility field the dispatch sets
(const, fn, static, trait, trait alias, type alias, struct, union, enum,
module with inline body) and whose attribute list carries no exclusion
marker, a successful rewrite sets the item's visibility to Public, whatever
visibility it had on input. -/
theorem c1_nonexcluded_vis_public (i : Item) (r : Bool) (out : Item)
    (hkind : i.isVisKind = true)
    (hnm : ∀ a ∈ i.attrsOf, isExcludeMarker a = false)
    (hok : explore_item i r = .ok out) :
    out.visOf = some .public := by
  have hx : exclB i.attrsOf = false := by
    rw [exclB, List.any_eq_false]
    intro a ha
    simp [hnm a ha]
  cases i with
  | const' v attrs n =>
    simp only [Item.attrsOf] at hx
    simp only [explore_item] at hok
    cases hie : is_exclude attrs with
    | error e => rw [hie] at hok; cases hok
    | ok p =>
      obtain ⟨b, res⟩ := p
      rw [hie] at hok
      have hb := (is_exclude_ok hie).1
      rw [hx] at hb
      subst hb
      cases hok
      rfl
  | enum' v attrs n =>
    simp only [Item.attrsOf] at hx
    simp only [explore_item] at hok
    cases hie : is_exclude attrs with
    | error e => rw [hie] at hok; cases hok
    | ok p =>
      obtain ⟨b, res⟩ := p
      rw [hie] at hok
      have hb := (is_exclude_ok hie).1
      rw [hx] at hb
      subst hb
      cases hok
      rfl
  | fn v attrs sig body =>
    simp only [Item.attrsOf] at hx
    simp only [explore_item] at hok
    cases hie : is_exclude attrs with
    | error e => rw [hie] at hok; cases hok
    | ok p =>
      obtain ⟨b, res⟩ := p
      rw [hie] at hok
      have hb := (is_exclude_ok hie).1
      rw [hx] at hb
      subst hb
      cases hok
      rfl
  | static' v attrs n =>
    simp only [Item.attrsOf] at hx
    simp only [explore_item] at hok
    cases hie : is_exclude attrs with
    | error e => rw [hie] at hok; cases hok
    | ok p =>
      obtain ⟨b, res⟩ := p
      rw [hie] at hok
      have hb := (is_exclude_ok hie).1
      rw [hx] at hb
      subst hb
      cases hok
      rfl
  | trait' v attrs n =>
    simp only [Item.attrsOf] at hx
    simp only [explore_item] at hok
    cases hie : is_exclude attrs with
    | error e => rw [hie] at hok; cases hok
    | ok p =>
      obtain ⟨b, res⟩ := p
      rw [hie] at hok
      have hb := (is_exclude_ok hie).1
      rw [hx] at hb
      subst hb
      cases hok
      rfl
  | traitAlias v attrs n =>
    simp only [Item.attrsOf] at hx
    simp only [explore_item] at hok
    cases hie : is_exclude attrs with
    | error e => rw [hie] at hok; cases hok
    | ok p =>
      obtain ⟨b, res⟩ := p
      rw [hie] at hok
      have hb := (is_exclude_ok hie).1
      rw [hx] at hb
      subst hb
      cases hok
      rfl
  | typeAlias v attrs n =>
    simp only [Item.attrsOf] at hx
    simp only [explore_item] at hok
    cases hie : is_exclude attrs with
    | error e => rw [hie] at hok; cases hok
    | ok p =>
      obtain ⟨b, res⟩ := p
      rw [hie] at hok
      have hb := (is_exclude_ok hie).1
      rw [hx] at hb
      subst hb
      cases hok
      rfl
  | externCrate v attrs n => simp [Item.isVisKind] at hkind
  | macroDef attrs n => simp [Item.isVisKind] at hkind
  | use' v attrs t => simp [Item.isVisKind] at hkind
  | foreignMod attrs abi items => simp [Item.isVisKind] at hkind
  | impl' attrs tr st items => simp [Item.isVisKind] at hkind
  | mod' v attrs n content =>
    cases content with
    | none => simp [Item.isVisKind] at hkind
    | some c =>
      simp only [Item.attrsOf] at hx
      simp only [explore_item] at hok
      cases hie : is_exclude attrs with
      | error e => rw [hie] at hok; cases hok
      | ok p =>
        obtain ⟨b, res⟩ := p
        rw [hie] at hok
        have hb := (is_exclude_ok hie).1
        rw [hx] at hb
        subst hb
        cases r with
        | false =>
          simp only [Bool.false_eq_true, if_false] at hok
          cases hok
          rfl
        | true =>
          simp only [if_true] at hok
          cases hc : explore_items c true with
          | error e => rw [hc] at hok; cases hok
          | ok c' =>
            rw [hc] at hok
            cases hok
            rfl
  | struct' v attrs n fields =>
    simp only [Item.attrsOf] at hx
    simp only [explore_item] at hok
    cases hie : is_exclude attrs with
    | error e => rw [hie] at hok; cases hok
    | ok p =>
      obtain ⟨b, res⟩ := p
      rw [hie] at hok
      have hb := (is_exclude_ok hie).1
      rw [hx] at hb
      subst hb
      cases fields with
      | named fs =>
        dsimp only at hok
        cases hf : explore_fields fs with
        | error e => rw [hf] at hok; cases hok
        | ok fs' => rw [hf] at hok; cases hok; rfl
      | unnamed fs =>
        dsimp only at hok
        cases hf : explore_fields fs with
        | error e => rw [hf] at hok; cases hok
        | ok fs' => rw [hf] at hok; cases hok; rfl
      | unit => cases hok; rfl
  | union' v attrs n fields =>
    simp only [Item.attrsOf] at hx
    simp only [explore_item] at hok
    cases hie : is_exclude attrs with
    | error e => rw [hie] at hok; cases hok
    | ok p =>
      obtain ⟨b, res⟩ := p
      rw [hie] at hok
      have hb := (is_exclude_ok hie).1
      rw [hx] at hb
      subst hb
      dsimp only at hok
      cases hf : explore_fields fields with
      | error e => rw [hf] at hok; cases hok
      | ok fs' => rw [hf] at hok; cases hok; rfl
  | verbatim t => simp [Item.isVisKind] at hkind

/-- C1 witness: a `static` with `pub(crate)` visibility and one inert
attribute is rewritten successfully and comes out `pub`. -/
theorem c1_witness :
    Item.isVisKind (.static' (.restricted "crate")
        [⟨"derive", some "Debug"⟩] "S") = true ∧
    (∀ a ∈ Item.attrsOf (.static' (.restricted "crate")
        [⟨"derive", some "Debug"⟩] "S"), isExcludeMarker a = false) ∧
    explore_item (.static' (.restricted "crate")
        [⟨"derive", some "Debug"⟩] "S") false
      = .ok (.static' .public [⟨"derive", some "Debug"⟩] "S") ∧
    Item.visOf (.static' .public [⟨"derive", some "Debug"⟩] "S")
      = some .public :=
  ⟨rfl, by decide, rfl,
    c1_nonexcluded_vis_public
      (.static' (.restricted "crate") [⟨"derive", some "Debug"⟩] "S") false
      (.static' .public [⟨"derive", some "Debug"⟩] "S") rfl (by decide) rfl⟩

/-- C6: a trait-implementation block (`trait_` present in the `impl` header)
is returned unchanged in every field, for either recursion flag: the
short-circuiting `trait_.is_none() && …` means its attributes are not even
scanned for markers. -/
theorem c6_trait_impl_untouched (attrs : List Attribute) (t selfTy : String)
    (items : List ImplItem) (r : Bool) :
    explore_item (.impl' attrs (some t) selfTy items) r
      = .ok (.impl' attrs (some t) selfTy items) := rfl

/-- C7: a non-excluded module with an inline body, rewritten with the
recursion flag `false`, becomes Public itself (with its own markers
stripped) while its content is returned exactly as supplied. -/
theorem c7_shallow_mod_content_untouched (v : Visibility)
    (attrs : List Attribute) (n : String) (content : Items) (out : Item)
    (hnx : exclB attrs = false)
    (hok : explore_item (.mod' v attrs n (some content)) false = .ok out) :
    out = .mod' .public (stripMarkers attrs) n (some content) := by
  simp only [explore_item] at hok
  cases hie : is_exclude attrs with
  | error e => rw [hie] at hok; cases hok
  | ok p =>
    obtain ⟨b, res⟩ := p
    rw [hie] at hok
    obtain ⟨hb, hres⟩ := is_exclude_ok hie
    rw [hnx] at hb
    subst hb
    subst hres
    simp only [Bool.false_eq_true, if_false] at hok
    cases hok
    rfl

/-- C7 witness: a module holding one private function with its own
attribute, rewritten non-recursively. -/
theorem c7_witness :
    exclB [⟨"cfg", some "test"⟩] = false ∧
    explore_item (.mod' .inherited [⟨"cfg", some "test"⟩] "m"
        (some (.cons (.fn .inherited [⟨"inline", none⟩] "f" .nil) .nil))) false
      = .ok (.mod' .public [⟨"cfg", some "test"⟩] "m"
        (some (.cons (.fn .inherited [⟨"inline", none⟩] "f" .nil) .nil))) ∧
    Item.mod' Visibility.public [⟨"cfg", some "test"⟩] "m"
        (some (.cons (.fn .inherited [⟨"inline", none⟩] "f" .nil) .nil))
      = .mod' .public (stripMarkers [⟨"cfg", some "test"⟩]) "m"
        (some (.cons (.fn .inherited [⟨"inline", none⟩] "f" .nil) .nil)) :=
  ⟨by decide, rfl,
    c7_shallow_mod_content_untouched .inherited [⟨"cfg", some "test"⟩] "m"
      (.cons (.fn .inherited [⟨"inline", none⟩] "f" .nil) .nil)
      (.mod' .public [⟨"cfg", some "test"⟩] "m"
        (some (.cons (.fn .inherited [⟨"inline", none⟩] "f" .nil) .nil)))
      (by decide) rfl⟩

/-- C9: whenever the marker scanner succeeds, the returned list is the input
list with exactly the marker-path attributes deleted — every other attribute
is kept, in its original relative order (`stripMarkers` is a `filter`). -/
theorem c9_scanner_preserves_nonmarkers (attrs : List Attribute) (b : Bool)
    (res : List Attribute) (h : is_exclude attrs = .ok (b, res)) :
    res = stripMarkers attrs :=
  (is_exclude_ok h).2

/-- C9 witness: two inert attributes around one marker; the output keeps
exactly the inert ones, in order. -/
theorem c9_witness :
    is_exclude [⟨"derive", some "Debug"⟩, ⟨"fully_pub", some "exclude"⟩,
        ⟨"serde", some "skip"⟩]
      = .ok (true, [⟨"derive", some "Debug"⟩, ⟨"serde", some "skip"⟩]) ∧
    [(⟨"derive", some "Debug"⟩ : Attribute), ⟨"serde", some "skip"⟩]
      = stripMarkers [⟨"derive", some "Debug"⟩, ⟨"fully_pub", some "exclude"⟩,
        ⟨"serde", some "skip"⟩] :=
  ⟨rfl,
    c9_scanner_preserves_nonmarkers
      [⟨"derive", some "Debug"⟩, ⟨"fully_pub", some "exclude"⟩,
        ⟨"serde", some "skip"⟩] true
      [⟨"derive", some "Debug"⟩, ⟨"serde", some "skip"⟩] rfl⟩

/-- C10: a successful rewrite of a non-excluded `fn` item changes only its
visibility (to Public) and its own attribute list (markers stripped); the
signature and the body — including every item declared inside the body,
whatever markers those carry — are returned untouched. -/
theorem c10_fn_body_untouched (v : Visibility) (attrs : List Attribute)
    (sig : String) (body : Items) (r : Bool) (out : Item)
    (hnx : exclB attrs = false)
    (hok : explore_item (.fn v attrs sig body) r = .ok out) :
    out = .fn .public (stripMarkers attrs) sig body := by
  simp only [explore_item] at hok
  cases hie : is_exclude attrs with
  | error e => rw [hie] at hok; cases hok
  | ok p =>
    obtain ⟨b, res⟩ := p
    rw [hie] at hok
    obtain ⟨hb, hres⟩ := is_exclude_ok hie
    rw [hnx] at hb
    subst hb
    subst hres
    cases hok
    rfl

/-- C10 witness: the function body declares an item carrying a marker (even
a duplicated one); the rewrite still succeeds and returns the body
verbatim — nested markers are never scanned. -/
theorem c10_witness :
    exclB [] = false ∧
    explore_item (.fn .inherited [] "fn f()"
        (.cons (.const' .inherited [⟨"fully_pub", some "exclude"⟩,
          ⟨"fully_pub", some "exclude"⟩] "C") .nil)) false
      = .ok (.fn .public [] "fn f()"
        (.cons (.const' .inherited [⟨"fully_pub", some "exclude"⟩,
          ⟨"fully_pub", some "exclude"⟩] "C") .nil)) ∧
    Item.fn Visibility.public [] "fn f()"
        (.cons (.const' .inherited [⟨"fully_pub", some "exclude"⟩,
          ⟨"fully_pub", some "exclude"⟩] "C") .nil)
      = .fn .public (stripMarkers []) "fn f()"
        (.cons (.const' .inherited [⟨"fully_pub", some "exclude"⟩,
          ⟨"fully_pub", some "exclude"⟩] "C") .nil) :=
  ⟨rfl, rfl,
    c10_fn_body_untouched .inherited [] "fn f()"
      (.cons (.const' .inherited [⟨"fully_pub", some "exclude"⟩,
        ⟨"fully_pub", some "exclude"⟩] "C") .nil) false
      (.fn .public [] "fn f()"
        (.cons (.const' .inherited [⟨"fully_pub", some "exclude"⟩,
          ⟨"fully_pub", some "exclude"⟩] "C") .nil))
      rfl rfl⟩

/-- The item kinds whose dispatch rule calls the marker scanner on the
item's own attribute list.  `ExternCrate`, `Macro`, `Use`, `Verbatim` and a
bodyless `Mod` are never scanned, and an `Impl` only when it implements no
trait (`trait_.is_none() && …` short-circuits). -/
def Item.scansOwnAttrs : Item → Bool
  | .const' _ _ _ => true
  | .enum' _ _ _ => true
  | .fn _ _ _ _ => true
  | .static' _ _ _ => true
  | .trait' _ _ _ => true
  | .traitAlias _ _ _ => true
  | .typeAlias _ _ _ => true
  | .foreignMod _ _ _ => true
  | .impl' _ none _ _ => true
  | .mod' _ _ _ (some _) => true
  | .struct' _ _ _ _ => true
  | .union' _ _ _ _ => true
  | _ => false

/-- C3 counterexample: an `Enum` item is *not* passed through unchanged —
`Item::Enum` sits in the first arm of the dispatch, so a private enum
without markers comes out Public. -/
theorem c3_counterexample :
    explore_item (.enum' .inherited [] "E") false
      = .ok (.enum' .public [] "E") ∧
    Item.enum' Visibility.public [] "E" ≠ .enum' .inherited [] "E" :=
  ⟨rfl, by simp⟩

/-- C3 amended: the kinds matched by no dispatch arm — verbatim token
streams and modules without an inline body (`mod m;`) — pass through
unchanged in every field; an `Enum` item, by contrast, is handled by the
first arm and is made Public when unmarked. -/
theorem c3_amended_passthrough (r : Bool) (tokens : String) (v : Visibility)
    (attrs : List Attribute) (n : String) :
    explore_item (.verbatim tokens) r = .ok (.verbatim tokens) ∧
    explore_item (.mod' v attrs n none) r = .ok (.mod' v attrs n none) ∧
    explore_item (.enum' v [] n) r = .ok (.enum' .public [] n) :=
  ⟨rfl, rfl, rfl⟩

/-- C2 counterexample: a `use` item carrying exactly one valid exclusion
marker is rewritten successfully, yet the marker is still present in the
output attribute list — the `Use` arm never scans its attributes. -/
theorem c2_counterexample :
    explore_item (.use' .inherited [⟨"fully_pub", some "exclude"⟩] "t") false
      = .ok (.use' .inherited [⟨"fully_pub", some "exclude"⟩] "t") ∧
    (⟨"fully_pub", some "exclude"⟩ : Attribute)
      ∈ Item.attrsOf (.use' .inherited [⟨"fully_pub", some "exclude"⟩] "t") ∧
    isExcludeMarker ⟨"fully_pub", some "exclude"⟩ = true :=
  ⟨rfl, by decide, by decide⟩

/-- C2 amended: for every node whose own attribute list the dispatch
actually scans and which carries a valid exclusion marker, a successful
rewrite leaves the node's visibility exactly equal to its input visibility
(not forced private, not made public) and leaves no marker attribute in the
node's output list.  Nodes the rewrite never scans (`extern crate`, `use`,
`macro` items, trait impls, bodyless modules, verbatim tokens) keep their
lists, markers included. -/
theorem c2_excluded_vis_kept (i : Item) (r : Bool) (out : Item)
    (hscan : i.scansOwnAttrs = true)
    (hmark : exclB i.attrsOf = true)
    (hok : explore_item i r = .ok out) :
    out.visOf = i.visOf ∧ markerFree out.attrsOf = true := by
  cases i with
  | const' v attrs n =>
    simp only [Item.attrsOf] at hmark
    simp only [explore_item] at hok
    cases hie : is_exclude attrs with
    | error e => rw [hie] at hok; cases hok
    | ok p =>
      obtain ⟨b, res⟩ := p
      rw [hie] at hok
      obtain ⟨hb, hres⟩ := is_exclude_ok hie
      rw [hmark] at hb
      subst hb
      subst hres
      cases hok
      exact ⟨rfl, markerFree_stripMarkers attrs⟩
  | enum' v attrs n =>
    simp only [Item.attrsOf] at hmark
    simp only [explore_item] at hok
    cases hie : is_exclude attrs with
    | error e => rw [hie] at hok; cases hok
    | ok p =>
      obtain ⟨b, res⟩ := p
      rw [hie] at hok
      obtain ⟨hb, hres⟩ := is_exclude_ok hie
      rw [hmark] at hb
      subst hb
      subst hres
      cases hok
      exact ⟨rfl, markerFree_stripMarkers attrs⟩
  | fn v attrs sig body =>
    simp only [Item.attrsOf] at hmark
    simp only [explore_item] at hok
    cases hie : is_exclude attrs with
    | error e => rw [hie] at hok; cases hok
    | ok p =>
      obtain ⟨b, res⟩ := p
      rw [hie] at hok
      obtain ⟨hb, hres⟩ := is_exclude_ok hie
      rw [hmark] at hb
      subst hb
      subst hres
      cases hok
      exact ⟨rfl, markerFree_stripMarkers attrs⟩
  | static' v attrs n =>
    simp only [Item.attrsOf] at hmark
    simp only [explore_item] at hok
    cases hie : is_exclude attrs with
    | error e => rw [hie] at hok; cases hok
    | ok p =>
      obtain ⟨b, res⟩ := p
      rw [hie] at hok
      obtain ⟨hb, hres⟩ := is_exclude_ok hie
      rw [hmark] at hb
      subst hb
      subst hres
      cases hok
      exact ⟨rfl, markerFree_stripMarkers attrs⟩
  | trait' v attrs n =>
    simp only [Item.attrsOf] at hmark
    simp only [explore_item] at hok
    cases hie : is_exclude attrs with
    | error e => rw [hie] at hok; cases hok
    | ok p =>
      obtain ⟨b, res⟩ := p
      rw [hie] at hok
      obtain ⟨hb, hres⟩ := is_exclude_ok hie
      rw [hmark] at hb
      subst hb
      subst hres
      cases hok
      exact ⟨rfl, markerFree_stripMarkers attrs⟩
  | traitAlias v attrs n =>
    simp only [Item.attrsOf] at hmark
    simp only [explore_item] at hok
    cases hie : is_exclude attrs with
    | error e => rw [hie] at hok; cases hok
    | ok p =>
      obtain ⟨b, res⟩ := p
      rw [hie] at hok
      obtain ⟨hb, hres⟩ := is_exclude_ok hie
      rw [hmark] at hb
      subst hb
      subst hres
      cases hok
      exact ⟨rfl, markerFree_stripMarkers attrs⟩
  | typeAlias v attrs n =>
    simp only [Item.attrsOf] at hmark
    simp only [explore_item] at hok
    cases hie : is_exclude attrs with
    | error e => rw [hie] at hok; cases hok
    | ok p =>
      obtain ⟨b, res⟩ := p
      rw [hie] at hok
      obtain ⟨hb, hres⟩ := is_exclude_ok hie
      rw [hmark] at hb
      subst hb
      subst hres
      cases hok
      exact ⟨rfl, markerFree_stripMarkers attrs⟩
  | externCrate v attrs n => simp [Item.scansOwnAttrs] at hscan
  | macroDef attrs n => simp [Item.scansOwnAttrs] at hscan
  | use' v attrs t => simp [Item.scansOwnAttrs] at hscan
  | foreignMod attrs abi items =>
    simp only [Item.attrsOf] at hmark
    simp only [explore_item] at hok
    cases hie : is_exclude attrs with
    | error e => rw [hie] at hok; cases hok
    | ok p =>
      obtain ⟨b, res⟩ := p
      rw [hie] at hok
      obtain ⟨hb, hres⟩ := is_exclude_ok hie
      rw [hmark] at hb
      subst hb
      subst hres
      cases hok
      exact ⟨rfl, markerFree_stripMarkers attrs⟩
  | impl' attrs tr st items =>
    cases tr with
    | some t => simp [Item.scansOwnAttrs] at hscan
    | none =>
      simp only [Item.attrsOf] at hmark
      simp only [explore_item] at hok
      cases hie : is_exclude attrs with
      | error e => rw [hie] at hok; cases hok
      | ok p =>
        obtain ⟨b, res⟩ := p
        rw [hie] at hok
        obtain ⟨hb, hres⟩ := is_exclude_ok hie
        rw [hmark] at hb
        subst hb
        subst hres
        cases hok
        exact ⟨rfl, markerFree_stripMarkers attrs⟩
  | mod' v attrs n content =>
    cases content with
    | none => simp [Item.scansOwnAttrs] at hscan
    | some c =>
      simp only [Item.attrsOf] at hmark
      simp only [explore_item] at hok
      cases hie : is_exclude attrs with
      | error e => rw [hie] at hok; cases hok
      | ok p =>
        obtain ⟨b, res⟩ := p
        rw [hie] at hok
        obtain ⟨hb, hres⟩ := is_exclude_ok hie
        rw [hmark] at hb
        subst hb
        subst hres
        cases hok
        exact ⟨rfl, markerFree_stripMarkers attrs⟩
  | struct' v attrs n fields =>
    simp only [Item.attrsOf] at hmark
    simp only [explore_item] at hok
    cases hie : is_exclude attrs with
    | error e => rw [hie] at hok; cases hok
    | ok p =>
      obtain ⟨b, res⟩ := p
      rw [hie] at hok
      obtain ⟨hb, hres⟩ := is_exclude_ok hie
      rw [hmark] at hb
      subst hb
      subst hres
      cases hok
      exact ⟨rfl, markerFree_stripMarkers attrs⟩
  | union' v attrs n fields =>
    simp only [Item.attrsOf] at hmark
    simp only [explore_item] at hok
    cases hie : is_exclude attrs with
    | error e => rw [hie] at hok; cases hok
    | ok p =>
      obtain ⟨b, res⟩ := p
      rw [hie] at hok
      obtain ⟨hb, hres⟩ := is_exclude_ok hie
      rw [hmark] at hb
      subst hb
      subst hres
      cases hok
      exact ⟨rfl, markerFree_stripMarkers attrs⟩
  | verbatim t => simp [Item.scansOwnAttrs] at hscan

/-- C2 witness: an excluded `pub(super)` struct keeps `pub(super)` and loses
its marker. -/
theorem c2_witness :
    Item.scansOwnAttrs (.struct' (.restricted "super")
        [⟨"fully_pub", some "exclude"⟩] "S" (.named [⟨.inherited, [], "x"⟩]))
      = true ∧
    exclB (Item.attrsOf (.struct' (.restricted "super")
        [⟨"fully_pub", some "exclude"⟩] "S" (.named [⟨.inherited, [], "x"⟩])))
      = true ∧
    explore_item (.struct' (.restricted "super")
        [⟨"fully_pub", some "exclude"⟩] "S" (.named [⟨.inherited, [], "x"⟩]))
        false
      = .ok (.struct' (.restricted "super") [] "S"
          (.named [⟨.inherited, [], "x"⟩])) ∧
    Item.visOf (.struct' (.restricted "super") [] "S"
        (.named [⟨.inherited, [], "x"⟩]))
      = Item.visOf (.struct' (.restricted "super")
        [⟨"fully_pub", some "exclude"⟩] "S"
        (.named [⟨.inherited, [], "x"⟩])) ∧
    markerFree (Item.attrsOf (.struct' (.restricted "super") [] "S"
        (.named [⟨.inherited, [], "x"⟩]))) = true :=
  ⟨rfl, by decide, rfl,
    (c2_excluded_vis_kept
      (.struct' (.restricted "super") [⟨"fully_pub", some "exclude"⟩] "S"
        (.named [⟨.inherited, [], "x"⟩])) false
      (.struct' (.restricted "super") [] "S" (.named [⟨.inherited, [], "x"⟩]))
      rfl (by decide) rfl).1,
    (c2_excluded_vis_kept
      (.struct' (.restricted "super") [⟨"fully_pub", some "exclude"⟩] "S"
        (.named [⟨.inherited, [], "x"⟩])) false
      (.struct' (.restricted "super") [] "S" (.named [⟨.inherited, [], "x"⟩]))
      rfl (by decide) rfl).2⟩

/-- C8 counterexample: a `use` node carrying two exclude markers is not
scanned at all — the rewrite succeeds and returns it unchanged, markers and
all, instead of failing with the duplicate-marker error.  And on a scanned
node, a marker with an unknown argument placed before the duplicate pair
yields the unknown-argument error, not the duplicate one. -/
theorem c8_counterexample :
    explore_item (.use' .inherited [⟨"fully_pub", some "exclude"⟩,
        ⟨"fully_pub", some "exclude"⟩] "t") false
      = .ok (.use' .inherited [⟨"fully_pub", some "exclude"⟩,
        ⟨"fully_pub", some "exclude"⟩] "t") ∧
    explore_item (.const' .inherited [⟨"fully_pub", some "deep"⟩,
        ⟨"fully_pub", some "exclude"⟩, ⟨"fully_pub", some "exclude"⟩] "C")
        false
      = .error (.unknownArgument "deep") :=
  ⟨rfl, rfl⟩

/-- C8 amended: an attribute list carrying two or more marker attributes,
all with the `exclude` argument, makes the marker scanner fail with the
duplicate-marker error, so the rewrite of any node whose list is scanned
(shown for a `const` item) fails with that error and produces no output
item; an unscanned node (such as a `use` item) succeeds unchanged instead. -/
theorem c8_duplicate_marker (attrs : List Attribute)
    (hv : allMarkersValid attrs = true) (hc : 2 ≤ markerCount attrs) :
    is_exclude attrs = .error .duplicateMarker ∧
    ∀ (v : Visibility) (n : String) (r : Bool),
      explore_item (.const' v attrs n) r = .error .duplicateMarker := by
  have h := is_exclude_dup hv hc
  refine ⟨h, ?_⟩
  intro v n r
  simp only [explore_item, h]

/-- C8 witness: two exclude markers on a scanned node. -/
theorem c8_witness :
    allMarkersValid [⟨"fully_pub", some "exclude"⟩,
        ⟨"fully_pub", some "exclude"⟩] = true ∧
    2 ≤ markerCount [⟨"fully_pub", some "exclude"⟩,
        ⟨"fully_pub", some "exclude"⟩] ∧
    explore_item (.const' .inherited [⟨"fully_pub", some "exclude"⟩,
        ⟨"fully_pub", some "exclude"⟩] "C") false
      = .error .duplicateMarker :=
  ⟨by decide, by decide,
    (c8_duplicate_marker [⟨"fully_pub", some "exclude"⟩,
        ⟨"fully_pub", some "exclude"⟩] (by decide) (by decide)).2
      .inherited "C" false⟩

/-! ## The depth property of the recursive mode (claim C4)

`deepVisOk i o` states, for the *recursive* mode, the per-node guarantee at
every nesting depth: a scanned node keeps its visibility when excluded and
is Public otherwise, scanned attribute lists come out marker-free, excluded
containers keep their contents untouched, never-scanned nodes are returned
verbatim, and module contents are checked recursively. -/

/-- Per-node visibility/marker guarantee: output visibility is the input one
if the input list carries a valid exclusion marker, Public otherwise; the
output list is marker-free. -/
def visMarkOk (vIn : Visibility) (aIn : List Attribute) (vOut : Visibility)
    (aOut : List Attribute) : Prop :=
  (if exclB aIn = true then vOut = vIn else vOut = .public) ∧
    markerFree aOut = true

/-- The guarantee for one struct/union field. -/
def fieldVisOk (f f' : Field) : Prop :=
  visMarkOk f.vis f.attrs f'.vis f'.attrs ∧ f'.name = f.name

/-- Pairwise field guarantee. -/
def fieldsVisOk : List Field → List Field → Prop
  | [], [] => True
  | f :: fs, f' :: fs' => fieldVisOk f f' ∧ fieldsVisOk fs fs'
  | _, _ => False

/-- The guarantee for one item of an `extern` block. -/
def foreignItemVisOk : ForeignItem → ForeignItem → Prop
  | .fn v a s, .fn v' a' s' => visMarkOk v a v' a' ∧ s' = s
  | .static' v a n, .static' v' a' n' => visMarkOk v a v' a' ∧ n' = n
  | .type' v a n, .type' v' a' n' => visMarkOk v a v' a' ∧ n' = n
  | .macroCall s, .macroCall s' => s' = s
  | .verbatim s, .verbatim s' => s' = s
  | _, _ => False

/-- Pairwise guarantee for `extern`-block items. -/
def foreignsVisOk : List ForeignItem → List ForeignItem → Prop
  | [], [] => True
  | i :: is', i' :: is'' => foreignItemVisOk i i' ∧ foreignsVisOk is' is''
  | _, _ => False

/-- The guarantee for one associated item of an inherent `impl` block. -/
def implItemVisOk : ImplItem → ImplItem → Prop
  | .const' v a n, .const' v' a' n' => visMarkOk v a v' a' ∧ n' = n
  | .fn v a n, .fn v' a' n' => visMarkOk v a v' a' ∧ n' = n
  | .type' v a n, .type' v' a' n' => visMarkOk v a v' a' ∧ n' = n
  | .macroCall s, .macroCall s' => s' = s
  | .verbatim s, .verbatim s' => s' = s
  | _, _ => False

/-- Pairwise guarantee for `impl`-block items. -/
def implsVisOk : List ImplItem → List ImplItem → Prop
  | [], [] => True
  | i :: is', i' :: is'' => implItemVisOk i i' ∧ implsVisOk is' is''
  | _, _ => False

/-- The guarantee for the `Fields` of a struct. -/
def fieldsPairOk : Fields → Fields → Prop
  | .named fs, .named fs' => fieldsVisOk fs fs'
  | .unnamed fs, .unnamed fs' => fieldsVisOk fs fs'
  | .unit, .unit => True
  | _, _ => False

mutual
/-- The guarantee claim C4 makes of the recursive mode, at every nesting
depth reachable through inline module bodies.  Structural on the input; the
output is matched non-recursively. -/
def deepVisOk : Item → Item → Prop
  | .const' v a n => fun o =>
      match o with
      | .const' v' a' n' => visMarkOk v a v' a' ∧ n' = n
      | _ => False
  | .enum' v a n => fun o =>
      match o with
      | .enum' v' a' n' => visMarkOk v a v' a' ∧ n' = n
      | _ => False
  | .fn v a s body => fun o =>
      match o with
      | .fn v' a' s' body' => visMarkOk v a v' a' ∧ s' = s ∧ body' = body
      | _ => False
  | .static' v a n => fun o =>
      match o with
      | .static' v' a' n' => visMarkOk v a v' a' ∧ n' = n
      | _ => False
  | .trait' v a n => fun o =>
      match o with
      | .trait' v' a' n' => visMarkOk v a v' a' ∧ n' = n
      | _ => False
  | .traitAlias v a n => fun o =>
      match o with
      | .traitAlias v' a' n' => visMarkOk v a v' a' ∧ n' = n
      | _ => False
  | .typeAlias v a n => fun o =>
      match o with
      | .typeAlias v' a' n' => visMarkOk v a v' a' ∧ n' = n
      | _ => False
  | .externCrate v a n => fun o =>
      match o with
      | .externCrate v' a' n' => v' = v ∧ a' = a ∧ n' = n
      | _ => False
  | .macroDef a n => fun o =>
      match o with
      | .macroDef a' n' => a' = a ∧ n' = n
      | _ => False
  | .use' v a t => fun o =>
      match o with
      | .use' v' a' t' => v' = v ∧ a' = a ∧ t' = t
      | _ => False
  | .foreignMod a abi its => fun o =>
      match o with
      | .foreignMod a' abi' its' =>
          markerFree a' = true ∧ abi' = abi ∧
            (if exclB a = true then its' = its else foreignsVisOk its its')
      | _ => False
  | .impl' a tr st its => fun o =>
      match o with
      | .impl' a' tr' st' its' =>
          st' = st ∧ tr' = tr ∧
            (match tr with
             | some _ => a' = a ∧ its' = its
             | none =>
                 markerFree a' = true ∧
                   (if exclB a = true then its' = its
                    else implsVisOk its its'))
      | _ => False
  | .mod' v a n none => fun o =>
      match o with
      | .mod' v' a' n' cont' => n' = n ∧ v' = v ∧ a' = a ∧ cont' = none
      | _ => False
  | .mod' v a n (some c) => fun o =>
      match o with
      | .mod' v' a' n' cont' =>
          n' = n ∧
            (if exclB a = true then
               v' = v ∧ markerFree a' = true ∧ cont' = some c
             else
               v' = .public ∧ markerFree a' = true ∧
                 (match cont' with
                  | some c' => deepVisOkItems c c'
                  | none => False))
      | _ => False
  | .struct' v a n fl => fun o =>
      match o with
      | .struct' v' a' n' fl' =>
          n' = n ∧ markerFree a' = true ∧
            (if exclB a = true then v' = v ∧ fl' = fl
             else v' = .public ∧ fieldsPairOk fl fl')
      | _ => False
  | .union' v a n fls => fun o =>
      match o with
      | .union' v' a' n' fls' =>
          n' = n ∧ markerFree a' = true ∧
            (if exclB a = true then v' = v ∧ fls' = fls
             else v' = .public ∧ fieldsVisOk fls fls')
      | _ => False
  | .verbatim t => fun o =>
      match o with
      | .verbatim t' => t' = t
      | _ => False

/-- Pairwise `deepVisOk` over module contents. -/
def deepVisOkItems : Items → Items → Prop
  | .nil => fun o =>
      match o with
      | .nil => True
      | _ => False
  | .cons i rest => fun o =>
      match o with
      | .cons i' rest' => deepVisOk i i' ∧ deepVisOkItems rest rest'
      | _ => False
end

/-- `explore_fields` satisfies the per-field guarantee. -/
theorem explore_fields_visOk :
    ∀ fs fs', explore_fields fs = .ok fs' → fieldsVisOk fs fs' := by
  intro fs
  induction fs with
  | nil => intro fs' h; cases h; trivial
  | cons f rest ih =>
    intro fs' h
    simp only [explore_fields] at h
    cases hie : is_exclude f.attrs with
    | error e => rw [hie] at h; cases h
    | ok p =>
      obtain ⟨b, res⟩ := p
      rw [hie] at h
      obtain ⟨hb, hres⟩ := is_exclude_ok hie
      subst hb
      subst hres
      dsimp only at h
      cases hr : explore_fields rest with
      | error e => rw [hr] at h; cases h
      | ok rest' =>
        rw [hr] at h
        cases h
        refine ⟨⟨?_, rfl⟩, ih rest' hr⟩
        cases hexc : exclB f.attrs with
        | true => simp [visMarkOk, hexc, markerFree_stripMarkers]
        | false => simp [visMarkOk, make_pub, hexc, markerFree_stripMarkers]

/-- `explore_foreign_items` satisfies the per-member guarantee. -/
theorem explore_foreign_visOk :
    ∀ its its', explore_foreign_items its = .ok its' →
      foreignsVisOk its its' := by
  intro its
  induction its with
  | nil => intro its' h; cases h; trivial
  | cons i rest ih =>
    intro its' h
    cases i with
    | fn v a s =>
      simp only [explore_foreign_items] at h
      cases hie : is_exclude a with
      | error e => rw [hie] at h; cases h
      | ok p =>
        obtain ⟨b, res⟩ := p
        rw [hie] at h
        obtain ⟨hb, hres⟩ := is_exclude_ok hie
        subst hb
        subst hres
        dsimp only at h
        cases hr : explore_foreign_items rest with
        | error e => rw [hr] at h; cases h
        | ok rest' =>
          rw [hr] at h
          cases h
          refine ⟨⟨?_, rfl⟩, ih rest' hr⟩
          cases hexc : exclB a with
          | true => simp [visMarkOk, hexc, markerFree_stripMarkers]
          | false => simp [visMarkOk, make_pub, hexc, markerFree_stripMarkers]
    | static' v a n =>
      simp only [explore_foreign_items] at h
      cases hie : is_exclude a with
      | error e => rw [hie] at h; cases h
      | ok p =>
        obtain ⟨b, res⟩ := p
        rw [hie] at h
        obtain ⟨hb, hres⟩ := is_exclude_ok hie
        subst hb
        subst hres
        dsimp only at h
        cases hr : explore_foreign_items rest with
        | error e => rw [hr] at h; cases h
        | ok rest' =>
          rw [hr] at h
          cases h
          refine ⟨⟨?_, rfl⟩, ih rest' hr⟩
          cases hexc : exclB a with
          | true => simp [visMarkOk, hexc, markerFree_stripMarkers]
          | false => simp [visMarkOk, make_pub, hexc, markerFree_stripMarkers]
    | type' v a n =>
      simp only [explore_foreign_items] at h
      cases hie : is_exclude a with
      | error e => rw [hie] at h; cases h
      | ok p =>
        obtain ⟨b, res⟩ := p
        rw [hie] at h
        obtain ⟨hb, hres⟩ := is_exclude_ok hie
        subst hb
        subst hres
        dsimp only at h
        cases hr : explore_foreign_items rest with
        | error e => rw [hr] at h; cases h
        | ok rest' =>
          rw [hr] at h
          cases h
          refine ⟨⟨?_, rfl⟩, ih rest' hr⟩
          cases hexc : exclB a with
          | true => simp [visMarkOk, hexc, markerFree_stripMarkers]
          | false => simp [visMarkOk, make_pub, hexc, markerFree_stripMarkers]
    | macroCall s =>
      simp only [explore_foreign_items] at h
      cases hr : explore_foreign_items rest with
      | error e => rw [hr] at h; cases h
      | ok rest' =>
        rw [hr] at h
        cases h
        exact ⟨rfl, ih rest' hr⟩
    | verbatim s =>
      simp only [explore_foreign_items] at h
      cases hr : explore_foreign_items rest with
      | error e => rw [hr] at h; cases h
      | ok rest' =>
        rw [hr] at h
        cases h
        exact ⟨rfl, ih rest' hr⟩

/-- `explore_impl_items` satisfies the per-member guarantee. -/
theorem explore_impl_visOk :
    ∀ its its', explore_impl_items its = .ok its' → implsVisOk its its' := by
  intro its
  induction its with
  | nil => intro its' h; cases h; trivial
  | cons i rest ih =>
    intro its' h
    cases i with
    | const' v a n =>
      simp only [explore_impl_items] at h
      cases hie : is_exclude a with
      | error e => rw [hie] at h; cases h
      | ok p =>
        obtain ⟨b, res⟩ := p
        rw [hie] at h
        obtain ⟨hb, hres⟩ := is_exclude_ok hie
        subst hb
        subst hres
        dsimp only at h
        cases hr : explore_impl_items rest with
        | error e => rw [hr] at h; cases h
        | ok rest' =>
          rw [hr] at h
          cases h
          refine ⟨⟨?_, rfl⟩, ih rest' hr⟩
          cases hexc : exclB a with
          | true => simp [visMarkOk, hexc, markerFree_stripMarkers]
          | false => simp [visMarkOk, make_pub, hexc, markerFree_stripMarkers]
    | fn v a n =>
      simp only [explore_impl_items] at h
      cases hie : is_exclude a with
      | error e => rw [hie] at h; cases h
      | ok p =>
        obtain ⟨b, res⟩ := p
        rw [hie] at h
        obtain ⟨hb, hres⟩ := is_exclude_ok hie
        subst hb
        subst hres
        dsimp only at h
        cases hr : explore_impl_items rest with
        | error e => rw [hr] at h; cases h
        | ok rest' =>
          rw [hr] at h
          cases h
          refine ⟨⟨?_, rfl⟩, ih rest' hr⟩
          cases hexc : exclB a with
          | true => simp [visMarkOk, hexc, markerFree_stripMarkers]
          | false => simp [visMarkOk, make_pub, hexc, markerFree_stripMarkers]
    | type' v a n =>
      simp only [explore_impl_items] at h
      cases hie : is_exclude a with
      | error e => rw [hie] at h; cases h
      | ok p =>
        obtain ⟨b, res⟩ := p
        rw [hie] at h
        obtain ⟨hb, hres⟩ := is_exclude_ok hie
        subst hb
        subst hres
        dsimp only at h
        cases hr : explore_impl_items rest with
        | error e => rw [hr] at h; cases h
        | ok rest' =>
          rw [hr] at h
          cases h
          refine ⟨⟨?_, rfl⟩, ih rest' hr⟩
          cases hexc : exclB a with
          | true => simp [visMarkOk, hexc, markerFree_stripMarkers]
          | false => simp [visMarkOk, make_pub, hexc, markerFree_stripMarkers]
    | macroCall s =>
      simp only [explore_impl_items] at h
      cases hr : explore_impl_items rest with
      | error e => rw [hr] at h; cases h
      | ok rest' =>
        rw [hr] at h
        cases h
        exact ⟨rfl, ih rest' hr⟩
    | verbatim s =>
      simp only [explore_impl_items] at h
      cases hr : explore_impl_items rest with
      | error e => rw [hr] at h; cases h
      | ok rest' =>
        rw [hr] at h
        cases h
        exact ⟨rfl, ih rest' hr⟩

/-- The content of an inline module is smaller than the module item. -/
theorem sizeOf_mod_content (v : Visibility) (a : List Attribute) (n : String)
    (c : Items) : sizeOf c < sizeOf (Item.mod' v a n (some c)) := by
  simp
  omega

/-- The head of an item list is smaller than the list. -/
theorem sizeOf_items_head (i : Item) (rest : Items) :
    sizeOf i < sizeOf (Items.cons i rest) := by
  simp
  omega

/-- The tail of an item list is smaller than the list. -/
theorem sizeOf_items_tail (i : Item) (rest : Items) :
    sizeOf rest < sizeOf (Items.cons i rest) := by
  simp

/-- Main induction for claim C4: a successful recursive rewrite satisfies
the depth guarantee, at every item and every item list, by strong induction
on the size bound `fuel`. -/
theorem exploreDeep_aux : ∀ fuel : Nat,
    (∀ i : Item, sizeOf i ≤ fuel → ∀ o, explore_item i true = .ok o →
      deepVisOk i o) ∧
    (∀ l : Items, sizeOf l ≤ fuel → ∀ l', explore_items l true = .ok l' →
      deepVisOkItems l l') := by
  intro fuel
  induction fuel using Nat.strong_induction_on with
  | _ fuel ih =>
    constructor
    · intro i hsz o h
      cases i with
      | const' v a n =>
        simp only [explore_item] at h
        cases hie : is_exclude a with
        | error e => rw [hie] at h; cases h
        | ok p =>
          obtain ⟨b, res⟩ := p
          rw [hie] at h
          obtain ⟨hb, hres⟩ := is_exclude_ok hie
          subst hb
          subst hres
          cases h
          simp only [deepVisOk]
          refine ⟨?_, by trivial⟩
          cases hexc : exclB a with
          | true => simp [visMarkOk, hexc, markerFree_stripMarkers]
          | false => simp [visMarkOk, make_pub, hexc, markerFree_stripMarkers]
      | enum' v a n =>
        simp only [explore_item] at h
        cases hie : is_exclude a with
        | error e => rw [hie] at h; cases h
        | ok p =>
          obtain ⟨b, res⟩ := p
          rw [hie] at h
          obtain ⟨hb, hres⟩ := is_exclude_ok hie
          subst hb
          subst hres
          cases h
          simp only [deepVisOk]
          refine ⟨?_, by trivial⟩
          cases hexc : exclB a with
          | true => simp [visMarkOk, hexc, markerFree_stripMarkers]
          | false => simp [visMarkOk, make_pub, hexc, markerFree_stripMarkers]
      | fn v a s body =>
        simp only [explore_item] at h
        cases hie : is_exclude a with
        | error e => rw [hie] at h; cases h
        | ok p =>
          obtain ⟨b, res⟩ := p
          rw [hie] at h
          obtain ⟨hb, hres⟩ := is_exclude_ok hie
          subst hb
          subst hres
          cases h
          simp only [deepVisOk]
          refine ⟨?_, by trivial, by trivial⟩
          cases hexc : exclB a with
          | true => simp [visMarkOk, hexc, markerFree_stripMarkers]
          | false => simp [visMarkOk, make_pub, hexc, markerFree_stripMarkers]
      | static' v a n =>
        simp only [explore_item] at h
        cases hie : is_exclude a with
        | error e => rw [hie] at h; cases h
        | ok p =>
          obtain ⟨b, res⟩ := p
          rw [hie] at h
          obtain ⟨hb, hres⟩ := is_exclude_ok hie
          subst hb
          subst hres
          cases h
          simp only [deepVisOk]
          refine ⟨?_, by trivial⟩
          cases hexc : exclB a with
          | true => simp [visMarkOk, hexc, markerFree_stripMarkers]
          | false => simp [visMarkOk, make_pub, hexc, markerFree_stripMarkers]
      | trait' v a n =>
        simp only [explore_item] at h
        cases hie : is_exclude a with
        | error e => rw [hie] at h; cases h
        | ok p =>
          obtain ⟨b, res⟩ := p
          rw [hie] at h
          obtain ⟨hb, hres⟩ := is_exclude_ok hie
          subst hb
          subst hres
          cases h
          simp only [deepVisOk]
          refine ⟨?_, by trivial⟩
          cases hexc : exclB a with
          | true => simp [visMarkOk, hexc, markerFree_stripMarkers]
          | false => simp [visMarkOk, make_pub, hexc, markerFree_stripMarkers]
      | traitAlias v a n =>
        simp only [explore_item] at h
        cases hie : is_exclude a with
        | error e => rw [hie] at h; cases h
        | ok p =>
          obtain ⟨b, res⟩ := p
          rw [hie] at h
          obtain ⟨hb, hres⟩ := is_exclude_ok hie
          subst hb
          subst hres
          cases h
          simp only [deepVisOk]
          refine ⟨?_, by trivial⟩
          cases hexc : exclB a with
          | true => simp [visMarkOk, hexc, markerFree_stripMarkers]
          | false => simp [visMarkOk, make_pub, hexc, markerFree_stripMarkers]
      | typeAlias v a n =>
        simp only [explore_item] at h
        cases hie : is_exclude a with
        | error e => rw [hie] at h; cases h
        | ok p =>
          obtain ⟨b, res⟩ := p
          rw [hie] at h
          obtain ⟨hb, hres⟩ := is_exclude_ok hie
          subst hb
          subst hres
          cases h
          simp only [deepVisOk]
          refine ⟨?_, by trivial⟩
          cases hexc : exclB a with
          | true => simp [visMarkOk, hexc, markerFree_stripMarkers]
          | false => simp [visMarkOk, make_pub, hexc, markerFree_stripMarkers]
      | externCrate v a n =>
        simp only [explore_item] at h
        cases h
        simp only [deepVisOk]
        exact ⟨by trivial, by trivial, by trivial⟩
      | macroDef a n =>
        simp only [explore_item] at h
        cases h
        simp only [deepVisOk]
        exact ⟨by trivial, by trivial⟩
      | use' v a t =>
        simp only [explore_item] at h
        cases h
        simp only [deepVisOk]
        exact ⟨by trivial, by trivial, by trivial⟩
      | foreignMod a abi its =>
        simp only [explore_item] at h
        cases hie : is_exclude a with
        | error e => rw [hie] at h; cases h
        | ok p =>
          obtain ⟨b, res⟩ := p
          rw [hie] at h
          obtain ⟨hb, hres⟩ := is_exclude_ok hie
          subst hres
          cases hexc : exclB a with
          | true =>
            rw [hexc] at hb
            subst hb
            dsimp only at h
            cases h
            simp only [deepVisOk]
            exact ⟨markerFree_stripMarkers a, by trivial, by simp [hexc]⟩
          | false =>
            rw [hexc] at hb
            subst hb
            dsimp only at h
            cases hfi : explore_foreign_items its with
            | error e => rw [hfi] at h; cases h
            | ok its' =>
              rw [hfi] at h
              cases h
              simp only [deepVisOk]
              refine ⟨markerFree_stripMarkers a, by trivial, ?_⟩
              simp only [hexc, Bool.false_eq_true, if_false]
              exact explore_foreign_visOk its its' hfi
      | impl' a tr st its =>
        cases tr with
        | some t =>
          simp only [explore_item] at h
          cases h
          simp only [deepVisOk]
          exact ⟨by trivial, by trivial, by trivial, by trivial⟩
        | none =>
          simp only [explore_item] at h
          cases hie : is_exclude a with
          | error e => rw [hie] at h; cases h
          | ok p =>
            obtain ⟨b, res⟩ := p
            rw [hie] at h
            obtain ⟨hb, hres⟩ := is_exclude_ok hie
            subst hres
            cases hexc : exclB a with
            | true =>
              rw [hexc] at hb
              subst hb
              dsimp only at h
              cases h
              simp only [deepVisOk]
              exact ⟨by trivial, by trivial, markerFree_stripMarkers a, by simp [hexc]⟩
            | false =>
              rw [hexc] at hb
              subst hb
              dsimp only at h
              cases hii : explore_impl_items its with
              | error e => rw [hii] at h; cases h
              | ok its' =>
                rw [hii] at h
                cases h
                simp only [deepVisOk]
                refine ⟨by trivial, by trivial, markerFree_stripMarkers a, ?_⟩
                simp only [hexc, Bool.false_eq_true, if_false]
                exact explore_impl_visOk its its' hii
      | mod' v a n cont =>
        cases cont with
        | none =>
          simp only [explore_item] at h
          cases h
          simp only [deepVisOk]
          exact ⟨by trivial, by trivial, by trivial, by trivial⟩
        | some c =>
          simp only [explore_item] at h
          cases hie : is_exclude a with
          | error e => rw [hie] at h; cases h
          | ok p =>
            obtain ⟨b, res⟩ := p
            rw [hie] at h
            obtain ⟨hb, hres⟩ := is_exclude_ok hie
            subst hres
            cases hexc : exclB a with
            | true =>
              rw [hexc] at hb
              subst hb
              dsimp only at h
              cases h
              simp only [deepVisOk]
              refine ⟨by trivial, ?_⟩
              simp [hexc, markerFree_stripMarkers]
            | false =>
              rw [hexc] at hb
              subst hb
              simp only [if_true] at h
              cases hc : explore_items c true with
              | error e => rw [hc] at h; cases h
              | ok c' =>
                rw [hc] at h
                cases h
                simp only [deepVisOk]
                refine ⟨by trivial, ?_⟩
                simp only [hexc, Bool.false_eq_true, if_false]
                refine ⟨by trivial, markerFree_stripMarkers a, ?_⟩
                have hlt : sizeOf c < fuel :=
                  lt_of_lt_of_le (sizeOf_mod_content v a n c) hsz
                exact (ih (sizeOf c) hlt).2 c le_rfl c' hc
      | struct' v a n fl =>
        simp only [explore_item] at h
        cases hie : is_exclude a with
        | error e => rw [hie] at h; cases h
        | ok p =>
          obtain ⟨b, res⟩ := p
          rw [hie] at h
          obtain ⟨hb, hres⟩ := is_exclude_ok hie
          subst hres
          cases hexc : exclB a with
          | true =>
            rw [hexc] at hb
            subst hb
            dsimp only at h
            cases h
            simp only [deepVisOk]
            exact ⟨by trivial, markerFree_stripMarkers a, by simp [hexc]⟩
          | false =>
            rw [hexc] at hb
            subst hb
            dsimp only at h
            cases fl with
            | named fs =>
              dsimp only at h
              cases hf : explore_fields fs with
              | error e => rw [hf] at h; cases h
              | ok fs' =>
                rw [hf] at h
                cases h
                simp only [deepVisOk]
                refine ⟨by trivial, markerFree_stripMarkers a, ?_⟩
                simp only [hexc, Bool.false_eq_true, if_false]
                exact ⟨by trivial, explore_fields_visOk fs fs' hf⟩
            | unnamed fs =>
              dsimp only at h
              cases hf : explore_fields fs with
              | error e => rw [hf] at h; cases h
              | ok fs' =>
                rw [hf] at h
                cases h
                simp only [deepVisOk]
                refine ⟨by trivial, markerFree_stripMarkers a, ?_⟩
                simp only [hexc, Bool.false_eq_true, if_false]
                exact ⟨by trivial, explore_fields_visOk fs fs' hf⟩
            | unit =>
              dsimp only at h
              cases h
              simp only [deepVisOk]
              refine ⟨by trivial, markerFree_stripMarkers a, ?_⟩
              simp only [hexc, Bool.false_eq_true, if_false]
              exact ⟨by trivial, trivial⟩
      | union' v a n fls =>
        simp only [explore_item] at h
        cases hie : is_exclude a with
        | error e => rw [hie] at h; cases h
        | ok p =>
          obtain ⟨b, res⟩ := p
          rw [hie] at h
          obtain ⟨hb, hres⟩ := is_exclude_ok hie
          subst hres
          cases hexc : exclB a with
          | true =>
            rw [hexc] at hb
            subst hb
            dsimp only at h
            cases h
            simp only [deepVisOk]
            exact ⟨by trivial, markerFree_stripMarkers a, by simp [hexc]⟩
          | false =>
            rw [hexc] at hb
            subst hb
            dsimp only at h
            cases hf : explore_fields fls with
            | error e => rw [hf] at h; cases h
            | ok fls' =>
              rw [hf] at h
              cases h
              simp only [deepVisOk]
              refine ⟨by trivial, markerFree_stripMarkers a, ?_⟩
              simp only [hexc, Bool.false_eq_true, if_false]
              exact ⟨by trivial, explore_fields_visOk fls fls' hf⟩
      | verbatim t =>
        simp only [explore_item] at h
        cases h
        simp only [deepVisOk]
    · intro l hsz l' h
      cases l with
      | nil =>
        simp only [explore_items] at h
        cases h
        simp only [deepVisOkItems]
      | cons i rest =>
        simp only [explore_items] at h
        cases h1 : explore_item i true with
        | error e => rw [h1] at h; cases h
        | ok i' =>
          rw [h1] at h
          dsimp only at h
          cases h2 : explore_items rest true with
          | error e => rw [h2] at h; cases h
          | ok rest' =>
            rw [h2] at h
            cases h
            have hi : sizeOf i < fuel :=
              lt_of_lt_of_le (sizeOf_items_head i rest) hsz
            have hr : sizeOf rest < fuel :=
              lt_of_lt_of_le (sizeOf_items_tail i rest) hsz
            exact ⟨(ih (sizeOf i) hi).1 i le_rfl i' h1,
              (ih (sizeOf rest) hr).2 rest le_rfl rest' h2⟩

/-- C4 counterexample: in recursive mode, a private `fn` without any marker
nested inside an *excluded* inner module stays private (and is not even
visited), contradicting "every item at every nesting depth becomes Public
unless that item itself carries a valid exclusion marker". -/
theorem c4_counterexample :
    explore_item
      (.mod' .inherited [] "outer"
        (some (.cons (.mod' .inherited [⟨"fully_pub", some "exclude"⟩] "inner"
          (some (.cons (.fn .inherited [] "f" .nil) .nil))) .nil))) true
    = .ok
      (.mod' .public [] "outer"
        (some (.cons (.mod' .inherited [] "inner"
          (some (.cons (.fn .inherited [] "f" .nil) .nil))) .nil))) ∧
    Item.visOf (.fn .inherited [] "f" .nil) ≠ some .public ∧
    (∀ a ∈ Item.attrsOf (.fn .inherited [] "f" .nil),
      isExcludeMarker a = false) :=
  ⟨rfl, by decide, by decide⟩

/-- C4 amended: when a module with an inline body is successfully rewritten
with the recursion flag true, then at every nesting depth reachable through
inline module bodies of non-excluded modules: every scanned node keeps its
input visibility if it carries a valid exclusion marker and has Public
visibility otherwise, every scanned attribute list comes out marker-free,
an excluded container's contents are returned untouched (markers included),
and never-scanned nodes (`extern crate`, `use`, `macro`, verbatim items,
trait impls, `fn` bodies) are returned verbatim — all as stated by
`deepVisOk`. -/
theorem c4_recursive_mod_depth (v : Visibility) (attrs : List Attribute)
    (n : String) (content : Items) (out : Item)
    (hok : explore_item (.mod' v attrs n (some content)) true = .ok out) :
    deepVisOk (.mod' v attrs n (some content)) out :=
  (exploreDeep_aux (sizeOf (Item.mod' v attrs n (some content)))).1 _
    le_rfl out hok

/-- C4 witness: a module holding a plain `fn`, an excluded inner module
with a `const` inside, and a `struct` with one excluded field, rewritten
recursively. -/
theorem c4_witness :
    explore_item
      (.mod' .inherited [] "outer"
        (some (.cons (.fn .inherited [] "f" .nil)
          (.cons (.mod' .inherited [⟨"fully_pub", some "exclude"⟩] "inner"
            (some (.cons (.const' .inherited [] "C") .nil)))
            (.cons (.struct' .inherited [] "S"
              (.named [⟨.inherited, [⟨"fully_pub", some "exclude"⟩], "x"⟩,
                ⟨.inherited, [], "y"⟩])) .nil))))) true
    = .ok
      (.mod' .public [] "outer"
        (some (.cons (.fn .public [] "f" .nil)
          (.cons (.mod' .inherited [] "inner"
            (some (.cons (.const' .inherited [] "C") .nil)))
            (.cons (.struct' .public [] "S"
              (.named [⟨.inherited, [], "x"⟩, ⟨.public, [], "y"⟩])) .nil))))) ∧
    deepVisOk
      (.mod' .inherited [] "outer"
        (some (.cons (.fn .inherited [] "f" .nil)
          (.cons (.mod' .inherited [⟨"fully_pub", some "exclude"⟩] "inner"
            (some (.cons (.const' .inherited [] "C") .nil)))
            (.cons (.struct' .inherited [] "S"
              (.named [⟨.inherited, [⟨"fully_pub", some "exclude"⟩], "x"⟩,
                ⟨.inherited, [], "y"⟩])) .nil)))))
      (.mod' .public [] "outer"
        (some (.cons (.fn .public [] "f" .nil)
          (.cons (.mod' .inherited [] "inner"
            (some (.cons (.const' .inherited [] "C") .nil)))
            (.cons (.struct' .public [] "S"
              (.named [⟨.inherited, [], "x"⟩, ⟨.public, [], "y"⟩])) .nil))))) :=
  ⟨rfl,
    c4_recursive_mod_depth .inherited [] "outer"
      (.cons (.fn .inherited [] "f" .nil)
        (.cons (.mod' .inherited [⟨"fully_pub", some "exclude"⟩] "inner"
          (some (.cons (.const' .inherited [] "C") .nil)))
          (.cons (.struct' .inherited [] "S"
            (.named [⟨.inherited, [⟨"fully_pub", some "exclude"⟩], "x"⟩,
              ⟨.inherited, [], "y"⟩])) .nil)))
      (.mod' .public [] "outer"
        (some (.cons (.fn .public [] "f" .nil)
          (.cons (.mod' .inherited [] "inner"
            (some (.cons (.const' .inherited [] "C") .nil)))
            (.cons (.struct' .public [] "S"
              (.named [⟨.inherited, [], "x"⟩, ⟨.public, [], "y"⟩])) .nil)))))
      rfl⟩

/-! ## Idempotence on marker-free inputs (claim C5) -/

/-- Every field's attribute list is free of marker-path attributes. -/
def fieldsMF (fs : List Field) : Bool := fs.all fun f => markerFree f.attrs

/-- Every `extern`-block member's attribute list is marker-free. -/
def foreignsMF (its : List ForeignItem) : Bool :=
  its.all fun i =>
    match i with
    | .fn _ a _ => markerFree a
    | .static' _ a _ => markerFree a
    | .type' _ a _ => markerFree a
    | .macroCall _ => true
    | .verbatim _ => true

/-- Every `impl`-block member's attribute list is marker-free. -/
def implsMF (its : List ImplItem) : Bool :=
  its.all fun i =>
    match i with
    | .const' _ a _ => markerFree a
    | .fn _ a _ => markerFree a
    | .type' _ a _ => markerFree a
    | .macroCall _ => true
    | .verbatim _ => true

/-- Marker-freeness of the `Fields` of a struct. -/
def fieldsOfMF : Fields → Bool
  | .named fs => fieldsMF fs
  | .unnamed fs => fieldsMF fs
  | .unit => true

mutual
/-- No attribute list anywhere in the item carries a marker-path attribute. -/
def deepMF : Item → Bool
  | .const' _ a _ => markerFree a
  | .enum' _ a _ => markerFree a
  | .fn _ a _ body => markerFree a && deepMFItems body
  | .static' _ a _ => markerFree a
  | .trait' _ a _ => markerFree a
  | .traitAlias _ a _ => markerFree a
  | .typeAlias _ a _ => markerFree a
  | .externCrate _ a _ => markerFree a
  | .macroDef a _ => markerFree a
  | .use' _ a _ => markerFree a
  | .foreignMod a _ its => markerFree a && foreignsMF its
  | .impl' a _ _ its => markerFree a && implsMF its
  | .mod' _ a _ none => markerFree a
  | .mod' _ a _ (some c) => markerFree a && deepMFItems c
  | .struct' _ a _ fl => markerFree a && fieldsOfMF fl
  | .union' _ a _ fls => markerFree a && fieldsMF fls
  | .verbatim _ => true

/-- `deepMF` over a list of items. -/
def deepMFItems : Items → Bool
  | .nil => true
  | .cons i rest => deepMF i && deepMFItems rest
end

/-- On marker-free fields, `explore_fields` preserves marker-freeness and
its output is a fixed point. -/
theorem explore_fields_mf :
    ∀ fs fs', fieldsMF fs = true → explore_fields fs = .ok fs' →
      fieldsMF fs' = true ∧ explore_fields fs' = .ok fs' := by
  intro fs
  induction fs with
  | nil =>
    intro fs' _ h
    cases h
    exact ⟨rfl, rfl⟩
  | cons f rest ih =>
    intro fs' hmf h
    simp only [fieldsMF, List.all_cons, Bool.and_eq_true] at hmf
    have h1 := is_exclude_markerFree hmf.1
    simp only [explore_fields, h1] at h
    cases hr : explore_fields rest with
    | error e => rw [hr] at h; cases h
    | ok rest' =>
      rw [hr] at h
      cases h
      obtain ⟨ihmf, ihrun⟩ := ih rest' (by simp [fieldsMF, hmf.2]) hr
      constructor
      · simp only [fieldsMF, List.all_cons, Bool.and_eq_true]
        exact ⟨hmf.1, by simpa [fieldsMF] using ihmf⟩
      · simp only [explore_fields, h1, ihrun, Bool.false_eq_true, if_false, make_pub]

/-- On marker-free members, `explore_foreign_items` preserves
marker-freeness and its output is a fixed point. -/
theorem explore_foreign_mf :
    ∀ its its', foreignsMF its = true → explore_foreign_items its = .ok its' →
      foreignsMF its' = true ∧ explore_foreign_items its' = .ok its' := by
  intro its
  induction its with
  | nil =>
    intro its' _ h
    cases h
    exact ⟨rfl, rfl⟩
  | cons i rest ih =>
    intro its' hmf h
    simp only [foreignsMF, List.all_cons, Bool.and_eq_true] at hmf
    cases i with
    | fn v a s =>
      have h1 := is_exclude_markerFree (by simpa using hmf.1)
      simp only [explore_foreign_items, h1] at h
      cases hr : explore_foreign_items rest with
      | error e => rw [hr] at h; cases h
      | ok rest' =>
        rw [hr] at h
        cases h
        obtain ⟨ihmf, ihrun⟩ := ih rest' (by simpa [foreignsMF] using hmf.2) hr
        constructor
        · simp only [foreignsMF, List.all_cons, Bool.and_eq_true]
          exact ⟨by simpa using hmf.1, by simpa [foreignsMF] using ihmf⟩
        · simp only [explore_foreign_items, h1, ihrun, Bool.false_eq_true, if_false, make_pub]
    | static' v a n =>
      have h1 := is_exclude_markerFree (by simpa using hmf.1)
      simp only [explore_foreign_items, h1] at h
      cases hr : explore_foreign_items rest with
      | error e => rw [hr] at h; cases h
      | ok rest' =>
        rw [hr] at h
        cases h
        obtain ⟨ihmf, ihrun⟩ := ih rest' (by simpa [foreignsMF] using hmf.2) hr
        constructor
        · simp only [foreignsMF, List.all_cons, Bool.and_eq_true]
          exact ⟨by simpa using hmf.1, by simpa [foreignsMF] using ihmf⟩
        · simp only [explore_foreign_items, h1, ihrun, Bool.false_eq_true, if_false, make_pub]
    | type' v a n =>
      have h1 := is_exclude_markerFree (by simpa using hmf.1)
      simp only [explore_foreign_items, h1] at h
      cases hr : explore_foreign_items rest with
      | error e => rw [hr] at h; cases h
      | ok rest' =>
        rw [hr] at h
        cases h
        obtain ⟨ihmf, ihrun⟩ := ih rest' (by simpa [foreignsMF] using hmf.2) hr
        constructor
        · simp only [foreignsMF, List.all_cons, Bool.and_eq_true]
          exact ⟨by simpa using hmf.1, by simpa [foreignsMF] using ihmf⟩
        · simp only [explore_foreign_items, h1, ihrun, Bool.false_eq_true, if_false, make_pub]
    | macroCall s =>
      simp only [explore_foreign_items] at h
      cases hr : explore_foreign_items rest with
      | error e => rw [hr] at h; cases h
      | ok rest' =>
        rw [hr] at h
        cases h
        obtain ⟨ihmf, ihrun⟩ := ih rest' (by simpa [foreignsMF] using hmf.2) hr
        constructor
        · simp only [foreignsMF, List.all_cons, Bool.and_eq_true]
          exact ⟨trivial, by simpa [foreignsMF] using ihmf⟩
        · simp only [explore_foreign_items, ihrun]
    | verbatim s =>
      simp only [explore_foreign_items] at h
      cases hr : explore_foreign_items rest with
      | error e => rw [hr] at h; cases h
      | ok rest' =>
        rw [hr] at h
        cases h
        obtain ⟨ihmf, ihrun⟩ := ih rest' (by simpa [foreignsMF] using hmf.2) hr
        constructor
        · simp only [foreignsMF, List.all_cons, Bool.and_eq_true]
          exact ⟨trivial, by simpa [foreignsMF] using ihmf⟩
        · simp only [explore_foreign_items, ihrun]

/-- On marker-free members, `explore_impl_items` preserves marker-freeness
and its output is a fixed point. -/
theorem explore_impl_mf :
    ∀ its its', implsMF its = true → explore_impl_items its = .ok its' →
      implsMF its' = true ∧ explore_impl_items its' = .ok its' := by
  intro its
  induction its with
  | nil =>
    intro its' _ h
    cases h
    exact ⟨rfl, rfl⟩
  | cons i rest ih =>
    intro its' hmf h
    simp only [implsMF, List.all_cons, Bool.and_eq_true] at hmf
    cases i with
    | const' v a n =>
      have h1 := is_exclude_markerFree (by simpa using hmf.1)
      simp only [explore_impl_items, h1] at h
      cases hr : explore_impl_items rest with
      | error e => rw [hr] at h; cases h
      | ok rest' =>
        rw [hr] at h
        cases h
        obtain ⟨ihmf, ihrun⟩ := ih rest' (by simpa [implsMF] using hmf.2) hr
        constructor
        · simp only [implsMF, List.all_cons, Bool.and_eq_true]
          exact ⟨by simpa using hmf.1, by simpa [implsMF] using ihmf⟩
        · simp only [explore_impl_items, h1, ihrun, Bool.false_eq_true, if_false, make_pub]
    | fn v a n =>
      have h1 := is_exclude_markerFree (by simpa using hmf.1)
      simp only [explore_impl_items, h1] at h
      cases hr : explore_impl_items rest with
      | error e => rw [hr] at h; cases h
      | ok rest' =>
        rw [hr] at h
        cases h
        obtain ⟨ihmf, ihrun⟩ := ih rest' (by simpa [implsMF] using hmf.2) hr
        constructor
        · simp only [implsMF, List.all_cons, Bool.and_eq_true]
          exact ⟨by simpa using hmf.1, by simpa [implsMF] using ihmf⟩
        · simp only [explore_impl_items, h1, ihrun, Bool.false_eq_true, if_false, make_pub]
    | type' v a n =>
      have h1 := is_exclude_markerFree (by simpa using hmf.1)
      simp only [explore_impl_items, h1] at h
      cases hr : explore_impl_items rest with
      | error e => rw [hr] at h; cases h
      | ok rest' =>
        rw [hr] at h
        cases h
        obtain ⟨ihmf, ihrun⟩ := ih rest' (by simpa [implsMF] using hmf.2) hr
        constructor
        · simp only [implsMF, List.all_cons, Bool.and_eq_true]
          exact ⟨by simpa using hmf.1, by simpa [implsMF] using ihmf⟩
        · simp only [explore_impl_items, h1, ihrun, Bool.false_eq_true, if_false, make_pub]
    | macroCall s =>
      simp only [explore_impl_items] at h
      cases hr : explore_impl_items rest with
      | error e => rw [hr] at h; cases h
      | ok rest' =>
        rw [hr] at h
        cases h
        obtain ⟨ihmf, ihrun⟩ := ih rest' (by simpa [implsMF] using hmf.2) hr
        constructor
        · simp only [implsMF, List.all_cons, Bool.and_eq_true]
          exact ⟨trivial, by simpa [implsMF] using ihmf⟩
        · simp only [explore_impl_items, ihrun]
    | verbatim s =>
      simp only [explore_impl_items] at h
      cases hr : explore_impl_items rest with
      | error e => rw [hr] at h; cases h
      | ok rest' =>
        rw [hr] at h
        cases h
        obtain ⟨ihmf, ihrun⟩ := ih rest' (by simpa [implsMF] using hmf.2) hr
        constructor
        · simp only [implsMF, List.all_cons, Bool.and_eq_true]
          exact ⟨trivial, by simpa [implsMF] using ihmf⟩
        · simp only [explore_impl_items, ihrun]

/-- Main induction for claim C5: on inputs with no marker-path attribute
anywhere, a successful rewrite is a fixed point of the rewrite (for either
recursion flag), and its output is again marker-free everywhere. -/
theorem exploreIdem_aux : ∀ fuel : Nat,
    (∀ i : Item, sizeOf i ≤ fuel → ∀ (r : Bool) (o : Item),
      deepMF i = true → explore_item i r = .ok o →
      deepMF o = true ∧ explore_item o r = .ok o) ∧
    (∀ l : Items, sizeOf l ≤ fuel → ∀ (r : Bool) (l' : Items),
      deepMFItems l = true → explore_items l r = .ok l' →
      deepMFItems l' = true ∧ explore_items l' r = .ok l') := by
  intro fuel
  induction fuel using Nat.strong_induction_on with
  | _ fuel ih =>
    constructor
    · intro i hsz r o hmf h
      cases i with
      | const' v a n =>
        simp only [deepMF] at hmf
        have h1 := is_exclude_markerFree hmf
        simp only [explore_item, h1] at h
        cases h
        refine ⟨by simpa [deepMF] using hmf, ?_⟩
        simp only [explore_item, h1, Bool.false_eq_true, if_false, make_pub]
      | enum' v a n =>
        simp only [deepMF] at hmf
        have h1 := is_exclude_markerFree hmf
        simp only [explore_item, h1] at h
        cases h
        refine ⟨by simpa [deepMF] using hmf, ?_⟩
        simp only [explore_item, h1, Bool.false_eq_true, if_false, make_pub]
      | fn v a s body =>
        simp only [deepMF, Bool.and_eq_true] at hmf
        have h1 := is_exclude_markerFree hmf.1
        simp only [explore_item, h1] at h
        cases h
        constructor
        · simp only [deepMF, Bool.and_eq_true]
          exact ⟨hmf.1, hmf.2⟩
        · simp only [explore_item, h1, Bool.false_eq_true, if_false, make_pub]
      | static' v a n =>
        simp only [deepMF] at hmf
        have h1 := is_exclude_markerFree hmf
        simp only [explore_item, h1] at h
        cases h
        refine ⟨by simpa [deepMF] using hmf, ?_⟩
        simp only [explore_item, h1, Bool.false_eq_true, if_false, make_pub]
      | trait' v a n =>
        simp only [deepMF] at hmf
        have h1 := is_exclude_markerFree hmf
        simp only [explore_item, h1] at h
        cases h
        refine ⟨by simpa [deepMF] using hmf, ?_⟩
        simp only [explore_item, h1, Bool.false_eq_true, if_false, make_pub]
      | traitAlias v a n =>
        simp only [deepMF] at hmf
        have h1 := is_exclude_markerFree hmf
        simp only [explore_item, h1] at h
        cases h
        refine ⟨by simpa [deepMF] using hmf, ?_⟩
        simp only [explore_item, h1, Bool.false_eq_true, if_false, make_pub]
      | typeAlias v a n =>
        simp only [deepMF] at hmf
        have h1 := is_exclude_markerFree hmf
        simp only [explore_item, h1] at h
        cases h
        refine ⟨by simpa [deepMF] using hmf, ?_⟩
        simp only [explore_item, h1, Bool.false_eq_true, if_false, make_pub]
      | externCrate v a n =>
        simp only [explore_item] at h
        cases h
        exact ⟨hmf, rfl⟩
      | macroDef a n =>
        simp only [explore_item] at h
        cases h
        exact ⟨hmf, rfl⟩
      | use' v a t =>
        simp only [explore_item] at h
        cases h
        exact ⟨hmf, rfl⟩
      | foreignMod a abi its =>
        simp only [deepMF, Bool.and_eq_true] at hmf
        have h1 := is_exclude_markerFree hmf.1
        simp only [explore_item, h1] at h
        cases hfi : explore_foreign_items its with
        | error e => rw [hfi] at h; cases h
        | ok its' =>
          rw [hfi] at h
          cases h
          obtain ⟨mf', run'⟩ := explore_foreign_mf its its' hmf.2 hfi
          constructor
          · simp only [deepMF, Bool.and_eq_true]
            exact ⟨hmf.1, mf'⟩
          · simp only [explore_item, h1, run']
      | impl' a tr st its =>
        cases tr with
        | some t =>
          simp only [explore_item] at h
          cases h
          exact ⟨hmf, rfl⟩
        | none =>
          simp only [deepMF, Bool.and_eq_true] at hmf
          have h1 := is_exclude_markerFree hmf.1
          simp only [explore_item, h1] at h
          cases hii : explore_impl_items its with
          | error e => rw [hii] at h; cases h
          | ok its' =>
            rw [hii] at h
            cases h
            obtain ⟨mf', run'⟩ := explore_impl_mf its its' hmf.2 hii
            constructor
            · simp only [deepMF, Bool.and_eq_true]
              exact ⟨hmf.1, mf'⟩
            · simp only [explore_item, h1, run']
      | mod' v a n cont =>
        cases cont with
        | none =>
          simp only [explore_item] at h
          cases h
          exact ⟨hmf, rfl⟩
        | some c =>
          simp only [deepMF, Bool.and_eq_true] at hmf
          have h1 := is_exclude_markerFree hmf.1
          simp only [explore_item, h1] at h
          cases r with
          | false =>
            simp only [Bool.false_eq_true, if_false] at h
            cases h
            constructor
            · simp only [deepMF, Bool.and_eq_true]
              exact ⟨hmf.1, hmf.2⟩
            · simp only [explore_item, h1, Bool.false_eq_true, if_false,
                make_pub]
          | true =>
            simp only [if_true] at h
            cases hc : explore_items c true with
            | error e => rw [hc] at h; cases h
            | ok c' =>
              rw [hc] at h
              cases h
              have hlt : sizeOf c < fuel :=
                lt_of_lt_of_le (sizeOf_mod_content v a n c) hsz
              obtain ⟨mf', run'⟩ :=
                (ih (sizeOf c) hlt).2 c le_rfl true c' hmf.2 hc
              constructor
              · simp only [deepMF, Bool.and_eq_true]
                exact ⟨hmf.1, mf'⟩
              · simp only [explore_item, h1, if_true, run', make_pub]
      | struct' v a n fl =>
        cases fl with
        | named fs =>
          simp only [deepMF, fieldsOfMF, Bool.and_eq_true] at hmf
          have h1 := is_exclude_markerFree hmf.1
          simp only [explore_item, h1] at h
          cases hf : explore_fields fs with
          | error e => rw [hf] at h; cases h
          | ok fs' =>
            rw [hf] at h
            cases h
            obtain ⟨mf', run'⟩ := explore_fields_mf fs fs' hmf.2 hf
            constructor
            · simp only [deepMF, fieldsOfMF, Bool.and_eq_true]
              exact ⟨hmf.1, mf'⟩
            · simp only [explore_item, h1, run', make_pub]
        | unnamed fs =>
          simp only [deepMF, fieldsOfMF, Bool.and_eq_true] at hmf
          have h1 := is_exclude_markerFree hmf.1
          simp only [explore_item, h1] at h
          cases hf : explore_fields fs with
          | error e => rw [hf] at h; cases h
          | ok fs' =>
            rw [hf] at h
            cases h
            obtain ⟨mf', run'⟩ := explore_fields_mf fs fs' hmf.2 hf
            constructor
            · simp only [deepMF, fieldsOfMF, Bool.and_eq_true]
              exact ⟨hmf.1, mf'⟩
            · simp only [explore_item, h1, run', make_pub]
        | unit =>
          simp [deepMF, fieldsOfMF] at hmf
          have h1 := is_exclude_markerFree hmf
          simp only [explore_item, h1] at h
          cases h
          constructor
          · simpa [deepMF, fieldsOfMF] using hmf
          · simp only [explore_item, h1, make_pub]
      | union' v a n fls =>
        simp only [deepMF, Bool.and_eq_true] at hmf
        have h1 := is_exclude_markerFree hmf.1
        simp only [explore_item, h1] at h
        cases hf : explore_fields fls with
        | error e => rw [hf] at h; cases h
        | ok fls' =>
          rw [hf] at h
          cases h
          obtain ⟨mf', run'⟩ := explore_fields_mf fls fls' hmf.2 hf
          constructor
          · simp only [deepMF, Bool.and_eq_true]
            exact ⟨hmf.1, mf'⟩
          · simp only [explore_item, h1, run', make_pub]
      | verbatim t =>
        simp only [explore_item] at h
        cases h
        exact ⟨rfl, rfl⟩
    · intro l hsz r l' hmf h
      cases l with
      | nil =>
        simp only [explore_items] at h
        cases h
        exact ⟨rfl, rfl⟩
      | cons i rest =>
        simp only [deepMFItems, Bool.and_eq_true] at hmf
        simp only [explore_items] at h
        cases h1 : explore_item i r with
        | error e => rw [h1] at h; cases h
        | ok i' =>
          rw [h1] at h
          dsimp only at h
          cases h2 : explore_items rest r with
          | error e => rw [h2] at h; cases h
          | ok rest' =>
            rw [h2] at h
            cases h
            have hi : sizeOf i < fuel :=
              lt_of_lt_of_le (sizeOf_items_head i rest) hsz
            have hr2 : sizeOf rest < fuel :=
              lt_of_lt_of_le (sizeOf_items_tail i rest) hsz
            obtain ⟨mfi, runi⟩ := (ih (sizeOf i) hi).1 i le_rfl r i' hmf.1 h1
            obtain ⟨mfr, runr⟩ :=
              (ih (sizeOf rest) hr2).2 rest le_rfl r rest' hmf.2 h2
            constructor
            · simp only [deepMFItems, Bool.and_eq_true]
              exact ⟨mfi, mfr⟩
            · simp only [explore_items, runi, runr]

/-- C5 counterexample: an excluded private `const` — the first run consumes
its marker and keeps it private; the second run, finding no marker, makes it
Public, so applying the rewrite twice does not preserve the visibility state
of the single application. -/
theorem c5_counterexample :
    explore_item (.const' .inherited [⟨"fully_pub", some "exclude"⟩] "C")
        false
      = .ok (.const' .inherited [] "C") ∧
    explore_item (.const' .inherited [] "C") false
      = .ok (.const' .public [] "C") ∧
    Item.visOf (.const' .public [] "C")
      ≠ Item.visOf (.const' .inherited [] "C") :=
  ⟨rfl, rfl, by decide⟩

/-- C5 amended: when the input carries no marker-path attribute anywhere
(`deepMF`), the output of a successful rewrite is a fixed point: applying
the rewrite a second time returns the identical item, so the visibility
state is that of a single application and no node regresses from Public.
On an input with an exclusion marker this fails: the first run consumes the
marker, so the second run makes the previously excluded node Public. -/
theorem c5_idempotent_on_marker_free (i : Item) (r : Bool) (o : Item)
    (hmf : deepMF i = true) (hok : explore_item i r = .ok o) :
    explore_item o r = .ok o :=
  ((exploreIdem_aux (sizeOf i)).1 i le_rfl r o hmf hok).2

/-- C5 witness: a marker-free module rewritten recursively; the output is a
fixed point of the rewrite. -/
theorem c5_witness :
    deepMF (.mod' .inherited [⟨"cfg", some "test"⟩] "m"
        (some (.cons (.fn .inherited [] "f" .nil) .nil))) = true ∧
    explore_item (.mod' .inherited [⟨"cfg", some "test"⟩] "m"
        (some (.cons (.fn .inherited [] "f" .nil) .nil))) true
      = .ok (.mod' .public [⟨"cfg", some "test"⟩] "m"
        (some (.cons (.fn .public [] "f" .nil) .nil))) ∧
    explore_item (.mod' .public [⟨"cfg", some "test"⟩] "m"
        (some (.cons (.fn .public [] "f" .nil) .nil))) true
      = .ok (.mod' .public [⟨"cfg", some "test"⟩] "m"
        (some (.cons (.fn .public [] "f" .nil) .nil))) :=
  ⟨by decide, rfl,
    c5_idempotent_on_marker_free
      (.mod' .inherited [⟨"cfg", some "test"⟩] "m"
        (some (.cons (.fn .inherited [] "f" .nil) .nil))) true
      (.mod' .public [⟨"cfg", some "test"⟩] "m"
        (some (.cons (.fn .public [] "f" .nil) .nil)))
      (by decide) rfl⟩

end FullyPub
